import Mathlib

/-!
# s_timer: a TLS 1.3 handshake benchmark client

Shallow embedding of `src/tls-client/s_timer.c`.

* Every call into libc or OpenSSL is an *external call*: what it returns is a
  field of `Env` (an arbitrary input), and the fact that it was made is an
  `Event` appended to the trace of the run.
* `double` values are exact rationals (`ℚ`); `size_t` values are naturals with
  an explicit `% 2 ^ 64` where the code can wrap (`measurements - 1`).
* Text is `List Char`; `printf` to standard output is `Event.printf`, which
  carries the source line of the statement and the text written;
  `fprintf (stderr, ...)` is `Event.fprintf_stderr`.
* `char *` values that can never be `NULL` in `main` are plain `List Char`; the
  parameter of `loadOQSProvider`, which the function tests against `NULL`, is
  an `Option`.
-/

namespace STimer

/-! ## Constants and machine arithmetic -/

/-- The constant `#define NS_IN_MS 1000000.0`. -/
def NS_IN_MS : ℚ := 1000000

/-- The constant `#define MS_IN_S 1000`. -/
def MS_IN_S : Int := 1000

/-- Number of values of the 64-bit `size_t`. -/
def SIZE : Nat := 2 ^ 64

/-- The difference `a - b` in `size_t` arithmetic (wraps around below zero). -/
def size_sub (a b : Nat) : Nat := (a % SIZE + (SIZE - b % SIZE)) % SIZE

/-- Conversion of an `int` to `size_t` (`arguments->rounds = atoi(arg)`). -/
def int_to_size (v : Int) : Nat := (v % (SIZE : Int)).toNat

/-! ## Command line -/

/-- The C `struct arguments`. -/
structure Arguments where
  host_name : List Char
  rounds : Nat
  config_file : List Char
  ca_cert : List Char
  ica_cert : List Char
  client_cert : List Char
  client_key : List Char
deriving DecidableEq

/-- The values `main` stores into `arguments` before parsing (lines 159-165). -/
def default_arguments : Arguments :=
  { host_name := [], rounds := 1, config_file := [], ca_cert := [],
    ica_cert := [], client_cert := [], client_key := [] }

/-- The function `parse_opt`: `none` is `ARGP_ERR_UNKNOWN`, `some a` is return value `0`
with the updated structure.  `key` is the option key (`'h'` = 104,
`'r'` = 114, 1 .. 5 for the long options), `atoi` is libc. -/
def parse_opt (atoi : List Char → Int) (key : Int) (arg : List Char)
    (arguments : Arguments) : Option Arguments :=
  if key = 104 then some { arguments with host_name := arg }
  else if key = 114 then some { arguments with rounds := int_to_size (atoi arg) }
  else if key = 1 then some { arguments with config_file := arg }
  else if key = 2 then some { arguments with ca_cert := arg }
  else if key = 3 then some { arguments with ica_cert := arg }
  else if key = 4 then some { arguments with client_cert := arg }
  else if key = 5 then some { arguments with client_key := arg }
  else none

/-- The call `argp_parse` (glibc) as `main` uses it: the options found on the command
line are handed to `parse_opt` one by one, in order; a key `parse_opt` does not
know leaves the structure as it is. -/
def argp_parse (atoi : List Char → Int) :
    List (Int × List Char) → Arguments → Arguments
  | [], arguments => arguments
  | (key, arg) :: rest, arguments =>
    match parse_opt atoi key arg arguments with
    | some arguments1 => argp_parse atoi rest arguments1
    | none => argp_parse atoi rest arguments

/-! ## Events -/

/-- External functions whose calls are recorded without data. -/
inductive Fn where
  | free_handshake_times_ms
  | free_conn_success
  | TLS_client_method
  | SSL_CTX_new
  | OpenSSL_version
  | SSL_CTX_set_mode
  | SSL_CTX_set_quiet_shutdown
  | SSL_CTX_set_min_proto_version
  | SSL_CTX_set_max_proto_version
  | SSL_CTX_set_options
  | SSL_CTX_set_ciphersuites
  | SSL_CTX_set1_groups_list
  | SSL_CTX_load_verify_locations
  | fopen
  | PEM_read_X509
  | fclose
  | SSL_CTX_free
  | SSL_CTX_add_extra_chain_cert
  | X509_free
  | SSL_CTX_use_certificate_file
  | SSL_CTX_use_PrivateKey_file
  | SSL_CTX_check_private_key
  | SSL_CTX_set_verify
  | ERR_print_errors_fp
  | BIO_new
  | BIO_set_conn_hostname
  | BIO_set_conn_mode
  | SSL_new
  | BIO_free
  | SSL_set_bio
  | SSL_connect
  | SSL_free
  | SSL_get_fd
  | setsockopt_SO_LINGER
  | SSL_set_shutdown
  | BIO_closesocket
deriving DecidableEq, Repr

/-- One observable action of the program. -/
inductive Event where
  | call (f : Fn)
  | malloc (bytes : Nat)
  | CONF_modules_load_file (path : List Char)
  | printf (line : Nat) (text : List Char)
  | fprintf_stderr (text : List Char)
  | clock_gettime_start
  | clock_gettime_finish
  | store_success (i : Nat) (b : Bool)
  | store_time (i : Nat) (d : ℚ)
  | load_time (i : Nat)
  | load_success (i : Nat)
deriving DecidableEq

/-- What the trace writes to standard output, in order. -/
def stdout_of : List Event → List Char
  | [] => []
  | Event.printf _ text :: rest => text ++ stdout_of rest
  | _ :: rest => stdout_of rest

/-- What the reporting step (the `printf` statements of source lines 321 and
323) writes to standard output, in order. -/
def reported_output : List Event → List Char
  | [] => []
  | Event.printf line text :: rest =>
    if line = 321 ∨ line = 323 then text ++ reported_output rest else reported_output rest
  | _ :: rest => reported_output rest

/-! ## Environment: the results of the external calls -/

/-- The C `struct timespec`. -/
structure Timespec where
  tv_sec : Int
  tv_nsec : Int
deriving DecidableEq

/-- Results of the external calls of one round. -/
structure RoundEnv where
  start : Timespec
  finish : Timespec
  bio_ok : Bool
  ssl_ok : Bool
  connect_ret : Int
  fd : Int
  close_ret : Int

/-- Results of the external calls of one run, and the build setting. -/
structure Env where
  atoi : List Char → Int
  malloc_times_ok : Bool
  malloc_success_ok : Bool
  heap_times : Nat → ℚ
  heap_success : Nat → Bool
  ctx_ok : Bool
  version : List Char
  min_proto_ret : Int
  max_proto_ret : Int
  ciphersuites_ret : Int
  groups_ret : Int
  verify_locations_ret : Int
  fopen_ok : Bool
  pem_ok : Bool
  add_chain_ret : Int
  use_cert_ret : Int
  use_key_ret : Int
  check_key_ret : Int
  conf_load_ret : List Char → Int
  round : Nat → RoundEnv
  so_linger_defined : Bool

/-! ## Formatted output (`printf` conversions, C locale) -/

/-- Character of one decimal digit. -/
def digit_char (d : Nat) : Char := Char.ofNat (48 + d % 10)

/-- Decimal digits of `n`, most significant first (`fuel` bounds the length). -/
def dec_digits : Nat → Nat → List Char
  | 0, _ => []
  | fuel + 1, n =>
    if n < 10 then [digit_char n] else dec_digits fuel (n / 10) ++ [digit_char n]

/-- Decimal numeral of a natural number. -/
def nat_text (n : Nat) : List Char := dec_digits (n + 1) n

/-- The value scaled by `10 ^ 6` and rounded to the nearest integer (ties to
even), in absolute value. -/
def micro_round (q : ℚ) : Nat :=
  let n := q.num.natAbs * 1000000
  let d := q.den
  if 2 * (n % d) > d ∨ (2 * (n % d) = d ∧ (n / d) % 2 = 1) then n / d + 1 else n / d

/-- The conversion `%f` applied to the exact value `q`: sign, integer part,
a point and six decimal places. -/
def fmt_f (q : ℚ) : List Char :=
  (if q.num < 0 then ['-'] else []) ++ nat_text (micro_round q / 1000000) ++ ['.'] ++
    [digit_char (micro_round q / 100000), digit_char (micro_round q / 10000),
     digit_char (micro_round q / 1000), digit_char (micro_round q / 100),
     digit_char (micro_round q / 10), digit_char (micro_round q)]

/-- The conversion `%i` applied to a `bool` (promoted to `int`). -/
def fmt_i (b : Bool) : List Char := if b then ['1'] else ['0']

/-- The text of `printf("%f:%i", d, b)`. -/
def token (d : ℚ) (b : Bool) : List Char := fmt_f d ++ [':'] ++ fmt_i b

/-- The text of `printf("%f:%i,", d, b)`. -/
def token_comma (d : ℚ) (b : Bool) : List Char := token d b ++ [',']

/-! ## Reading a decimal numeral back

The inverse direction of `%f`, used to state what value a rendered duration
denotes. -/

/-- Value of a decimal digit character. -/
def digit_value (c : Char) : Nat := c.toNat - 48

/-- The natural number a string of decimal digits denotes. -/
def read_nat (cs : List Char) : Nat := cs.foldl (fun acc c => 10 * acc + digit_value c) 0

/-- The number an unsigned decimal numeral denotes: the digits before the
point, plus the digits after it scaled by their count. -/
def read_unsigned (cs : List Char) : ℚ :=
  (read_nat (cs.takeWhile fun c => c != '.') : ℚ) +
    (read_nat ((cs.dropWhile fun c => c != '.').drop 1) : ℚ) /
      10 ^ ((cs.dropWhile fun c => c != '.').drop 1).length

/-- The number a decimal numeral with an optional leading `-` denotes. -/
def read_decimal : List Char → ℚ
  | [] => 0
  | c :: rest => if c = '-' then - read_unsigned rest else read_unsigned (c :: rest)

/-! ## The program -/

/-- The function `loadOQSProvider`: the return value and the events.  `none` is a `NULL`
path. -/
def loadOQSProvider (conf_load_ret : List Char → Int) :
    Option (List Char) → Int × List Event
  | some providerPath =>
    if conf_load_ret providerPath ≤ 0 then
      (1, [Event.CONF_modules_load_file providerPath,
           Event.fprintf_stderr ("Error loading OQS provider from ".toList ++ providerPath
             ++ "\n".toList)])
    else (0, [Event.CONF_modules_load_file providerPath])
  | none => (0, [])

/-- The function `do_tls_handshake`: `true` when a session is returned, `false` for `NULL`,
with the events of the call.  `so_linger` tells whether the block under
`#if defined(SOL_SOCKET) && defined(SO_LINGER)` is compiled in. -/
def do_tls_handshake (so_linger : Bool) (r : RoundEnv) : Bool × List Event :=
  if !r.bio_ok then (false, [Event.call Fn.BIO_new])
  else if !r.ssl_ok then
    (false, [Event.call Fn.BIO_new, Event.call Fn.BIO_set_conn_hostname,
             Event.call Fn.BIO_set_conn_mode, Event.call Fn.SSL_new,
             Event.call Fn.BIO_free])
  else if r.connect_ret ≤ 0 then
    (false, [Event.call Fn.BIO_new, Event.call Fn.BIO_set_conn_hostname,
             Event.call Fn.BIO_set_conn_mode, Event.call Fn.SSL_new,
             Event.call Fn.SSL_set_bio, Event.call Fn.SSL_connect,
             Event.call Fn.ERR_print_errors_fp, Event.call Fn.SSL_free])
  else
    (true, [Event.call Fn.BIO_new, Event.call Fn.BIO_set_conn_hostname,
            Event.call Fn.BIO_set_conn_mode, Event.call Fn.SSL_new,
            Event.call Fn.SSL_set_bio, Event.call Fn.SSL_connect] ++
           (if so_linger then
              [Event.call Fn.SSL_get_fd] ++
                (if 0 ≤ r.fd then [Event.call Fn.setsockopt_SO_LINGER] else [])
            else []))

/-- The expression of lines 303-304:
`((finish.tv_sec - start.tv_sec) * MS_IN_S) + ((finish.tv_nsec - start.tv_nsec) / NS_IN_MS)`. -/
def duration_ms (start finish : Timespec) : ℚ :=
  (((finish.tv_sec - start.tv_sec) * MS_IN_S : Int) : ℚ) +
    ((finish.tv_nsec - start.tv_nsec : Int) : ℚ) / NS_IN_MS

/-- The two trial buffers `handshake_times_ms` and `conn_success`, as maps
from index to content.  What `malloc` left in them is `Env.heap_times` and
`Env.heap_success`; the sizes asked of `malloc` are in `Event.malloc`, and every
read of the reporting step is an `Event.load_time` / `Event.load_success` with
its index. -/
structure Buffers where
  handshake_times_ms : Nat → ℚ
  conn_success : Nat → Bool

/-- How one pass through the body of the `while` loop ends: `ossl_error` is
`some ret` when the pass leaves by `goto ossl_error` with that value in `ret`. -/
structure Step where
  ossl_error : Option Int
  bufs : Buffers
  events : List Event

/-- The body of the `while` loop (lines 292-313) at counter `measurements`. -/
def loop_body (so_linger : Bool) (r : RoundEnv) (measurements : Nat) (bufs : Buffers) :
    Step :=
  let hs := do_tls_handshake so_linger r
  let timed := [Event.clock_gettime_start] ++ hs.2 ++ [Event.clock_gettime_finish]
  if !hs.1 then
    { ossl_error := none
      bufs :=
        { conn_success := Function.update bufs.conn_success measurements false
          handshake_times_ms := Function.update bufs.handshake_times_ms measurements (-1) }
      events :=
        timed ++ [Event.store_success measurements false, Event.store_time measurements (-1)] }
  else
    let bufs1 : Buffers :=
      { conn_success := Function.update bufs.conn_success measurements true
        handshake_times_ms :=
          Function.update bufs.handshake_times_ms measurements (duration_ms r.start r.finish) }
    let stored := timed ++ [Event.store_success measurements true,
      Event.store_time measurements (duration_ms r.start r.finish),
      Event.call Fn.SSL_set_shutdown, Event.call Fn.SSL_get_fd, Event.call Fn.BIO_closesocket]
    if r.close_ret = -1 then { ossl_error := some r.close_ret, bufs := bufs1, events := stored }
    else { ossl_error := none, bufs := bufs1, events := stored ++ [Event.call Fn.SSL_free] }

/-- How the `while` loop ends: the counter, the buffers, the events of all
passes, and `ossl_error = some ret` when it was left by `goto ossl_error`. -/
structure LoopExit where
  ossl_error : Option Int
  measurements : Nat
  bufs : Buffers
  events : List Event

/-- The loop `while (measurements < arguments.rounds) { ... measurements++; }`.  The
recursion is on `fuel`, which is at least the number `rounds - measurements` of
passes still to make, so the loop always runs to its own exit. -/
def while_loop (so_linger : Bool) (round : Nat → RoundEnv) (rounds : Nat) :
    (fuel : Nat) → (measurements : Nat) → rounds - measurements ≤ fuel → Buffers → LoopExit
  | 0, measurements, _, bufs =>
    -- here `rounds - measurements ≤ 0`: the loop condition is false
    { ossl_error := none, measurements := measurements, bufs := bufs, events := [] }
  | fuel + 1, measurements, h, bufs =>
    if hlt : measurements < rounds then
      let step := loop_body so_linger (round measurements) measurements bufs
      match step.ossl_error with
      | some ret =>
        { ossl_error := some ret, measurements := measurements, bufs := step.bufs,
          events := step.events }
      | none =>
        let rest := while_loop so_linger round rounds fuel (measurements + 1)
          (by omega) step.bufs
        { rest with events := step.events ++ rest.events }
    else { ossl_error := none, measurements := measurements, bufs := bufs, events := [] }

/-- The events of one `printf` of lines 320-324 reading index `i`: the two
buffer reads, then the text written by the statement at source line `line`. -/
def report_at (bufs : Buffers) (i : Nat) (line : Nat) (text : ℚ → Bool → List Char) :
    List Event :=
  [Event.load_time i, Event.load_success i,
   Event.printf line (text (bufs.handshake_times_ms i) (bufs.conn_success i))]

/-- The events of lines 320-324: the `for` loop up to `measurements - 1`
(computed in `size_t`), then the last `printf`. -/
def report (bufs : Buffers) (measurements : Nat) : List Event :=
  ((List.range (size_sub measurements 1)).map fun i =>
      report_at bufs i 321 token_comma).flatten ++
    report_at bufs (size_sub measurements 1) 323 token

/-- How the part of `main` before the `while` loop ends. -/
inductive Config where
  | returned (ret : Int) (events : List Event)
  | ossl_error (ret : Int) (events : List Event)
  | ready (events : List Event)

/-- Lines 170-289 of `main`: allocation, creation of the context and the
configuration steps.  `returned` is an early `return`, `ossl_error` is
`goto ossl_error` with the current value of `ret`. -/
def configure (arguments : Arguments) (env : Env) : Config :=
  let e0 := [Event.call Fn.TLS_client_method, Event.malloc (arguments.rounds * 8 % SIZE),
    Event.malloc (arguments.rounds * 1 % SIZE)]
  if !env.malloc_times_ok || !env.malloc_success_ok then
    Config.returned 1 (e0 ++ [Event.fprintf_stderr "Memory allocation failed.\n".toList,
      Event.call Fn.free_handshake_times_ms, Event.call Fn.free_conn_success])
  else
  let e1 := e0 ++ [Event.call Fn.SSL_CTX_new]
  if !env.ctx_ok then
    Config.returned 1 (e1 ++ [Event.fprintf_stderr "Failed to create SSL context.\n".toList,
      Event.call Fn.free_handshake_times_ms, Event.call Fn.free_conn_success])
  else
  let e2 := e1 ++ [Event.call Fn.OpenSSL_version,
    Event.printf 203 ("OpenSSL Version: ".toList ++ env.version ++ "\n".toList),
    Event.call Fn.SSL_CTX_set_mode, Event.call Fn.SSL_CTX_set_quiet_shutdown,
    Event.call Fn.SSL_CTX_set_min_proto_version]
  if env.min_proto_ret ≠ 1 then Config.ossl_error env.min_proto_ret e2
  else
  let e3 := e2 ++ [Event.call Fn.SSL_CTX_set_max_proto_version]
  if env.max_proto_ret ≠ 1 then Config.ossl_error env.max_proto_ret e3
  else
  let e4 := e3 ++ [Event.call Fn.SSL_CTX_set_options, Event.call Fn.SSL_CTX_set_ciphersuites]
  if env.ciphersuites_ret ≠ 1 then Config.ossl_error env.ciphersuites_ret e4
  else
  let e5 := e4 ++ [Event.call Fn.SSL_CTX_set1_groups_list]
  if env.groups_ret ≠ 1 then Config.ossl_error env.groups_ret e5
  else
  let e6 := e5 ++ [Event.call Fn.SSL_CTX_load_verify_locations]
  if env.verify_locations_ret ≤ 0 then Config.ossl_error env.verify_locations_ret e6
  else
  let e7 := e6 ++ [Event.call Fn.fopen] ++
    (if env.fopen_ok then [Event.call Fn.PEM_read_X509, Event.call Fn.fclose] else [])
  if !(env.fopen_ok && env.pem_ok) then
    Config.ossl_error env.verify_locations_ret
      (e7 ++ [Event.fprintf_stderr "Error loading intermediate CA certificate.\n".toList,
        Event.call Fn.SSL_CTX_free])
  else
  let e8 := e7 ++ [Event.call Fn.SSL_CTX_add_extra_chain_cert]
  if env.add_chain_ret ≤ 0 then
    Config.ossl_error env.verify_locations_ret
      (e8 ++ [Event.fprintf_stderr
          "Error adding intermediate CA certificate to the chain.\n".toList,
        Event.call Fn.X509_free, Event.call Fn.SSL_CTX_free])
  else
  let e9 := e8 ++ [Event.call Fn.SSL_CTX_use_certificate_file]
  if env.use_cert_ret ≤ 0 then
    Config.ossl_error env.verify_locations_ret
      (e9 ++ [Event.call Fn.ERR_print_errors_fp, Event.call Fn.SSL_CTX_free])
  else
  let e10 := e9 ++ [Event.call Fn.SSL_CTX_use_PrivateKey_file]
  if env.use_key_ret ≤ 0 then
    Config.ossl_error env.verify_locations_ret
      (e10 ++ [Event.call Fn.ERR_print_errors_fp, Event.call Fn.SSL_CTX_free])
  else
  let e11 := e10 ++ [Event.call Fn.SSL_CTX_check_private_key]
  if env.check_key_ret = 0 then
    Config.ossl_error env.verify_locations_ret
      (e11 ++ [Event.fprintf_stderr "Private key does not match the certificate.\n".toList,
        Event.call Fn.SSL_CTX_free])
  else
  let e12 := e11 ++ [Event.call Fn.SSL_CTX_set_verify]
  let provider := loadOQSProvider env.conf_load_ret (some arguments.config_file)
  if provider.1 = 0 then
    Config.ready (e12 ++ provider.2 ++
      [Event.printf 285 "OQS provider loaded successfully.\n".toList])
  else
    Config.ossl_error env.verify_locations_ret
      (e12 ++ provider.2 ++ [Event.fprintf_stderr "Failed to load OQS provider.\n".toList])

/-- The events from the label `ossl_error` to the label `end`. -/
def at_ossl_error : List Event :=
  [Event.fprintf_stderr "Unrecoverable OpenSSL error.\n".toList,
   Event.call Fn.ERR_print_errors_fp]

/-- The events from the label `end` to the `return`. -/
def at_end : List Event :=
  [Event.call Fn.SSL_CTX_free, Event.call Fn.free_handshake_times_ms,
   Event.call Fn.free_conn_success]

/-- A finished run of `main`: the value it returns (the exit code of the
process), all events in order, and the final buffers and counter. -/
structure Run where
  ret : Int
  trace : List Event
  bufs : Buffers
  measurements : Nat

/-- The buffers as `malloc` returns them. -/
def heap (env : Env) : Buffers :=
  { handshake_times_ms := env.heap_times, conn_success := env.heap_success }

/-- The `while` loop of `main`, entered with `measurements = 0`. -/
def bench_loop (arguments : Arguments) (env : Env) : LoopExit :=
  while_loop env.so_linger_defined env.round arguments.rounds arguments.rounds 0
    (Nat.sub_le _ _) (heap env)

/-- The function `main` from line 170 on, for the parsed `arguments`. -/
def main_body (arguments : Arguments) (env : Env) : Run :=
  match configure arguments env with
  | Config.returned ret events =>
    { ret := ret, trace := events, bufs := heap env, measurements := 0 }
  | Config.ossl_error ret events =>
    { ret := ret, trace := events ++ at_ossl_error ++ at_end, bufs := heap env,
      measurements := 0 }
  | Config.ready events =>
    match (bench_loop arguments env).ossl_error with
    | some ret =>
      { ret := ret,
        trace := events ++ (bench_loop arguments env).events ++ at_ossl_error ++ at_end,
        bufs := (bench_loop arguments env).bufs,
        measurements := (bench_loop arguments env).measurements }
    | none =>
      { ret := 0,
        trace := events ++ (bench_loop arguments env).events ++
          report (bench_loop arguments env).bufs (bench_loop arguments env).measurements ++
          at_end,
        bufs := (bench_loop arguments env).bufs,
        measurements := (bench_loop arguments env).measurements }

/-- The function `main`: `opts` are the options argp finds on the command line, as pairs of
key and argument. -/
def main (opts : List (Int × List Char)) (env : Env) : Run :=
  main_body (argp_parse env.atoi opts default_arguments) env

/-! ## Predicates on the environment -/

/-- Every step of lines 183-289 succeeds, each by the test the code applies to
it: the two allocations, the creation of the context, the TLS 1.3 minimum and
maximum pins, the cipher suite, the key-exchange group, the root certificate,
the intermediate certificate (file opened and decoded, then appended), the
client certificate, the client key, the consistency check, the provider. -/
def steps_ok (arguments : Arguments) (env : Env) : Prop :=
  env.malloc_times_ok = true ∧ env.malloc_success_ok = true ∧ env.ctx_ok = true ∧
  env.min_proto_ret = 1 ∧ env.max_proto_ret = 1 ∧ env.ciphersuites_ret = 1 ∧
  env.groups_ret = 1 ∧ 0 < env.verify_locations_ret ∧
  env.fopen_ok = true ∧ env.pem_ok = true ∧ 0 < env.add_chain_ret ∧
  0 < env.use_cert_ret ∧ 0 < env.use_key_ret ∧ env.check_key_ret ≠ 0 ∧
  0 < env.conf_load_ret arguments.config_file

instance (arguments : Arguments) (env : Env) : Decidable (steps_ok arguments env) := by
  unfold steps_ok; infer_instance

/-- Every step before the provider step succeeds. -/
def steps_before_provider_ok (env : Env) : Prop :=
  env.malloc_times_ok = true ∧ env.malloc_success_ok = true ∧ env.ctx_ok = true ∧
  env.min_proto_ret = 1 ∧ env.max_proto_ret = 1 ∧ env.ciphersuites_ret = 1 ∧
  env.groups_ret = 1 ∧ 0 < env.verify_locations_ret ∧
  env.fopen_ok = true ∧ env.pem_ok = true ∧ 0 < env.add_chain_ret ∧
  0 < env.use_cert_ret ∧ 0 < env.use_key_ret ∧ env.check_key_ret ≠ 0

instance (env : Env) : Decidable (steps_before_provider_ok env) := by
  unfold steps_before_provider_ok; infer_instance

/-- The test of line 308 fires in the round: the handshake succeeds and the
value `BIO_closesocket` returns is `-1`, so the pass leaves by
`goto ossl_error`. -/
def close_fails (so_linger : Bool) (r : RoundEnv) : Prop :=
  (do_tls_handshake so_linger r).1 = true ∧ r.close_ret = -1

instance (so_linger : Bool) (r : RoundEnv) : Decidable (close_fails so_linger r) := by
  unfold close_fails; infer_instance

/-- Both `tv_nsec` are in `[0, 10^9)` and `t1` is not earlier than `t0`. -/
def valid_interval (t0 t1 : Timespec) : Prop :=
  0 ≤ t0.tv_nsec ∧ t0.tv_nsec < 1000000000 ∧ 0 ≤ t1.tv_nsec ∧ t1.tv_nsec < 1000000000 ∧
  (t0.tv_sec < t1.tv_sec ∨ (t0.tv_sec = t1.tv_sec ∧ t0.tv_nsec ≤ t1.tv_nsec))

instance (t0 t1 : Timespec) : Decidable (valid_interval t0 t1) := by
  unfold valid_interval; infer_instance

/-- The events of the part of `main` before the loop. -/
def Config.events : Config → List Event
  | Config.returned _ events => events
  | Config.ossl_error _ events => events
  | Config.ready events => events

/-- An event of the benchmark loop or of the reporting step: the start of a
handshake, a timestamp, a write to or a read of a trial buffer, or the `printf`
of a token (source lines 321 and 323). -/
def Event.of_rounds : Event → Bool
  | Event.call Fn.BIO_new => true
  | Event.clock_gettime_start => true
  | Event.clock_gettime_finish => true
  | Event.store_success _ _ => true
  | Event.store_time _ _ => true
  | Event.load_time _ => true
  | Event.load_success _ => true
  | Event.printf line _ => line == 321 || line == 323
  | _ => false

/-- A teardown action on a connection: setting the socket not to linger,
marking the TLS shutdown flags, closing the socket, freeing the session. -/
def Event.teardown : Event → Bool
  | Event.call Fn.setsockopt_SO_LINGER => true
  | Event.call Fn.SSL_set_shutdown => true
  | Event.call Fn.BIO_closesocket => true
  | Event.call Fn.SSL_free => true
  | _ => false

/-! ## Concrete environments -/

/-- A round whose connection is refused: `SSL_connect` reports failure. -/
def refused_round : RoundEnv :=
  { start := ⟨100, 999000000⟩, finish := ⟨101, 1000000⟩, bio_ok := true, ssl_ok := true,
    connect_ret := -1, fd := 3, close_ret := 0 }

/-- A round whose handshake succeeds after 2.5 ms and whose socket closes. -/
def good_round : RoundEnv :=
  { start := ⟨100, 999000000⟩, finish := ⟨101, 1500000⟩, bio_ok := true, ssl_ok := true,
    connect_ret := 1, fd := 3, close_ret := 0 }

/-- An environment in which every external call succeeds with the value its
documentation gives for success, and every round is `good_round`. -/
def good_env : Env :=
  { atoi := fun _ => 0, malloc_times_ok := true, malloc_success_ok := true,
    heap_times := fun _ => 0, heap_success := fun _ => false, ctx_ok := true,
    version := "OpenSSL 3.2.0".toList, min_proto_ret := 1, max_proto_ret := 1,
    ciphersuites_ret := 1, groups_ret := 1, verify_locations_ret := 1, fopen_ok := true,
    pem_ok := true, add_chain_ret := 1, use_cert_ret := 1, use_key_ret := 1,
    check_key_ret := 1, conf_load_ret := fun _ => 1, round := fun _ => good_round,
    so_linger_defined := true }

/-- Three rounds of which the second is refused. -/
def mixed_env : Env :=
  { good_env with round := fun i => if i = 1 then refused_round else good_round }

/-- The target refuses every connection. -/
def refused_env : Env := { good_env with round := fun _ => refused_round }

/-- The library rejects the TLS 1.3 minimum version pin:
`SSL_CTX_set_min_proto_version` returns `0`. -/
def pin_rejected_env : Env := { good_env with min_proto_ret := 0 }

/-- The intermediate certificate file cannot be opened: `fopen` returns `NULL`. -/
def no_chain_file_env : Env := { good_env with fopen_ok := false }

/-- The socket of the second round cannot be closed.  `BIO_closesocket`
(OpenSSL) returns 1 on success and 0 on failure, so it returns 0 there; the
first and third rounds are refused. -/
def close_error_env : Env :=
  { good_env with round := fun i => if i = 1 then { good_round with close_ret := 0 }
      else refused_round }

/-- The loader of the provider configuration reports failure. -/
def provider_fails_env : Env := { good_env with conf_load_ret := fun _ => 0 }

/-- Buffers holding a success of 2.5 ms at index 0 and failures elsewhere. -/
def two_trials : Buffers :=
  { handshake_times_ms := fun i => if i = 0 then 5 / 2 else -1
    conn_success := fun i => decide (i = 0) }

/-- The `struct arguments` of a run with `rounds = 3` and no other option. -/
def three_rounds : Arguments := { default_arguments with rounds := 3 }

end STimer


namespace STimer

/-! ## The configuration phase -/

theorem stdout_of_append (xs ys : List Event) :
    stdout_of (xs ++ ys) = stdout_of xs ++ stdout_of ys := by
  induction xs with
  | nil => rfl
  | cons e es ih => cases e <;> simp [stdout_of, ih]

/-- When every step succeeds the configuration phase falls through to the loop,
with exactly these events. -/
theorem configure_ready (arguments : Arguments) (env : Env) (h : steps_ok arguments env) :
    configure arguments env = Config.ready
      [Event.call Fn.TLS_client_method, Event.malloc (arguments.rounds * 8 % SIZE),
       Event.malloc (arguments.rounds * 1 % SIZE), Event.call Fn.SSL_CTX_new,
       Event.call Fn.OpenSSL_version,
       Event.printf 203 ("OpenSSL Version: ".toList ++ env.version ++ "\n".toList),
       Event.call Fn.SSL_CTX_set_mode, Event.call Fn.SSL_CTX_set_quiet_shutdown,
       Event.call Fn.SSL_CTX_set_min_proto_version,
       Event.call Fn.SSL_CTX_set_max_proto_version, Event.call Fn.SSL_CTX_set_options,
       Event.call Fn.SSL_CTX_set_ciphersuites, Event.call Fn.SSL_CTX_set1_groups_list,
       Event.call Fn.SSL_CTX_load_verify_locations, Event.call Fn.fopen,
       Event.call Fn.PEM_read_X509, Event.call Fn.fclose,
       Event.call Fn.SSL_CTX_add_extra_chain_cert, Event.call Fn.SSL_CTX_use_certificate_file,
       Event.call Fn.SSL_CTX_use_PrivateKey_file, Event.call Fn.SSL_CTX_check_private_key,
       Event.call Fn.SSL_CTX_set_verify, Event.CONF_modules_load_file arguments.config_file,
       Event.printf 285 "OQS provider loaded successfully.\n".toList] := by
  obtain ⟨h1, h2, h3, h4, h5, h6, h7, h8, h9, h10, h11, h12, h13, h14, h15⟩ := h
  simp [configure, loadOQSProvider, h1, h2, h3, h4, h5, h6, h7, h9, h10, h14,
    not_le.mpr h8, not_le.mpr h11, not_le.mpr h12, not_le.mpr h13, not_le.mpr h15]

/-- When some step fails the configuration phase does not reach the loop. -/
theorem configure_not_ready (arguments : Arguments) (env : Env)
    (h : ¬ steps_ok arguments env) :
    ∀ events, configure arguments env ≠ Config.ready events := by
  intro events hc
  apply h
  by_cases h1 : env.malloc_times_ok = true
  swap
  · simp [configure, h1] at hc
  by_cases h2 : env.malloc_success_ok = true
  swap
  · simp [configure, h1, h2] at hc
  by_cases h3 : env.ctx_ok = true
  swap
  · simp [configure, h1, h2, h3] at hc
  by_cases h4 : env.min_proto_ret = 1
  swap
  · simp [configure, h1, h2, h3, h4] at hc
  by_cases h5 : env.max_proto_ret = 1
  swap
  · simp [configure, h1, h2, h3, h4, h5] at hc
  by_cases h6 : env.ciphersuites_ret = 1
  swap
  · simp [configure, h1, h2, h3, h4, h5, h6] at hc
  by_cases h7 : env.groups_ret = 1
  swap
  · simp [configure, h1, h2, h3, h4, h5, h6, h7] at hc
  by_cases h8 : 0 < env.verify_locations_ret
  swap
  · simp [configure, h1, h2, h3, h4, h5, h6, h7, not_lt.mp h8] at hc
  by_cases h9 : env.fopen_ok = true
  swap
  · simp [configure, h1, h2, h3, h4, h5, h6, h7, not_le.mpr h8, h9] at hc
  by_cases h10 : env.pem_ok = true
  swap
  · simp [configure, h1, h2, h3, h4, h5, h6, h7, not_le.mpr h8, h9, h10] at hc
  by_cases h11 : 0 < env.add_chain_ret
  swap
  · simp [configure, h1, h2, h3, h4, h5, h6, h7, not_le.mpr h8, h9, h10, not_lt.mp h11] at hc
  by_cases h12 : 0 < env.use_cert_ret
  swap
  · simp [configure, h1, h2, h3, h4, h5, h6, h7, not_le.mpr h8, h9, h10, not_le.mpr h11,
      not_lt.mp h12] at hc
  by_cases h13 : 0 < env.use_key_ret
  swap
  · simp [configure, h1, h2, h3, h4, h5, h6, h7, not_le.mpr h8, h9, h10, not_le.mpr h11,
      not_le.mpr h12, not_lt.mp h13] at hc
  by_cases h14 : env.check_key_ret = 0
  · simp [configure, h1, h2, h3, h4, h5, h6, h7, not_le.mpr h8, h9, h10, not_le.mpr h11,
      not_le.mpr h12, not_le.mpr h13, h14] at hc
  by_cases h15 : 0 < env.conf_load_ret arguments.config_file
  swap
  · simp [configure, loadOQSProvider, h1, h2, h3, h4, h5, h6, h7, not_le.mpr h8, h9, h10,
      not_le.mpr h11, not_le.mpr h12, not_le.mpr h13, h14, not_lt.mp h15] at hc
  exact ⟨h1, h2, h3, h4, h5, h6, h7, h8, h9, h10, h11, h12, h13, h14, h15⟩

/-- The configuration phase starts no handshake, takes no timestamp, touches
no trial buffer and prints no token. -/
theorem configure_events_not_of_rounds (arguments : Arguments) (env : Env) :
    ∀ e ∈ (configure arguments env).events, e.of_rounds = false := by
  by_cases h1 : env.malloc_times_ok = true
  swap
  · simp [configure, loadOQSProvider, Config.events, Event.of_rounds, h1]
  by_cases h2 : env.malloc_success_ok = true
  swap
  · simp [configure, loadOQSProvider, Config.events, Event.of_rounds, h1, h2]
  by_cases h3 : env.ctx_ok = true
  swap
  · simp [configure, loadOQSProvider, Config.events, Event.of_rounds, h1, h2, h3]
  by_cases h4 : env.min_proto_ret = 1
  swap
  · simp [configure, loadOQSProvider, Config.events, Event.of_rounds, h1, h2, h3, h4]
  by_cases h5 : env.max_proto_ret = 1
  swap
  · simp [configure, loadOQSProvider, Config.events, Event.of_rounds, h1, h2, h3, h4, h5]
  by_cases h6 : env.ciphersuites_ret = 1
  swap
  · simp [configure, loadOQSProvider, Config.events, Event.of_rounds, h1, h2, h3, h4, h5, h6]
  by_cases h7 : env.groups_ret = 1
  swap
  · simp [configure, loadOQSProvider, Config.events, Event.of_rounds, h1, h2, h3, h4, h5, h6,
      h7]
  by_cases h8 : 0 < env.verify_locations_ret
  swap
  · simp [configure, loadOQSProvider, Config.events, Event.of_rounds, h1, h2, h3, h4, h5, h6,
      h7, not_lt.mp h8]
  by_cases h9 : env.fopen_ok = true
  swap
  · simp [configure, loadOQSProvider, Config.events, Event.of_rounds, h1, h2, h3, h4, h5, h6,
      h7, not_le.mpr h8, h9]
  by_cases h10 : env.pem_ok = true
  swap
  · simp [configure, loadOQSProvider, Config.events, Event.of_rounds, h1, h2, h3, h4, h5, h6,
      h7, not_le.mpr h8, h9, h10]
  by_cases h11 : 0 < env.add_chain_ret
  swap
  · simp [configure, loadOQSProvider, Config.events, Event.of_rounds, h1, h2, h3, h4, h5, h6,
      h7, not_le.mpr h8, h9, h10, not_lt.mp h11]
  by_cases h12 : 0 < env.use_cert_ret
  swap
  · simp [configure, loadOQSProvider, Config.events, Event.of_rounds, h1, h2, h3, h4, h5, h6,
      h7, not_le.mpr h8, h9, h10, not_le.mpr h11, not_lt.mp h12]
  by_cases h13 : 0 < env.use_key_ret
  swap
  · simp [configure, loadOQSProvider, Config.events, Event.of_rounds, h1, h2, h3, h4, h5, h6,
      h7, not_le.mpr h8, h9, h10, not_le.mpr h11, not_le.mpr h12, not_lt.mp h13]
  by_cases h14 : env.check_key_ret ≠ 0
  swap
  · simp [configure, loadOQSProvider, Config.events, Event.of_rounds, h1, h2, h3, h4, h5, h6,
      h7, not_le.mpr h8, h9, h10, not_le.mpr h11, not_le.mpr h12, not_le.mpr h13, not_not.mp
      h14]
  by_cases h15 : 0 < env.conf_load_ret arguments.config_file
  swap
  · simp [configure, loadOQSProvider, Config.events, Event.of_rounds, h1, h2, h3, h4, h5, h6,
      h7, not_le.mpr h8, h9, h10, not_le.mpr h11, not_le.mpr h12, not_le.mpr h13, h14, not_lt.mp
      h15]
  rw [configure_ready arguments env
    ⟨h1, h2, h3, h4, h5, h6, h7, h8, h9, h10, h11, h12, h13, h14, h15⟩]
  simp [Config.events, Event.of_rounds]

/-! ## One round -/

/-- A session is returned exactly when all three of `BIO_new`, `SSL_new` and
`SSL_connect` succeed; the build setting plays no part. -/
theorem do_tls_handshake_fst (so_linger : Bool) (r : RoundEnv) :
    (do_tls_handshake so_linger r).1 = (r.bio_ok && r.ssl_ok && decide (0 < r.connect_ret)) := by
  unfold do_tls_handshake
  split_ifs <;> simp_all

theorem do_tls_handshake_count (so_linger : Bool) (r : RoundEnv) :
    (do_tls_handshake so_linger r).2.count (Event.call Fn.BIO_new) = 1 := by
  unfold do_tls_handshake
  split_ifs <;> simp

/-- Every event of the executor is a call of an external function. -/
theorem do_tls_handshake_calls (so_linger : Bool) (r : RoundEnv) :
    ∀ e ∈ (do_tls_handshake so_linger r).2, ∃ f, e = Event.call f := by
  unfold do_tls_handshake
  split_ifs <;> simp

theorem stdout_of_calls (es : List Event) (h : ∀ e ∈ es, ∃ f, e = Event.call f) :
    stdout_of es = [] := by
  induction es with
  | nil => rfl
  | cons e es ih =>
    obtain ⟨f, rfl⟩ := h e (List.mem_cons_self _ _)
    simpa [stdout_of] using ih (fun e he => h e (List.mem_cons_of_mem _ he))

/-- In a pass, the exit by `goto ossl_error` is taken exactly when the test of
line 308 fires (`close_fails`), and then `ret` is `-1`. -/
theorem loop_body_ossl_error (so_linger : Bool) (r : RoundEnv) (m : Nat) (bufs : Buffers) :
    (loop_body so_linger r m bufs).ossl_error =
      if close_fails so_linger r then some (-1) else none := by
  by_cases hs : (do_tls_handshake so_linger r).1 = true <;>
    by_cases hc : r.close_ret = -1 <;> simp [loop_body, close_fails, hs, hc]

theorem loop_body_count (so_linger : Bool) (r : RoundEnv) (m : Nat) (bufs : Buffers) :
    (loop_body so_linger r m bufs).events.count (Event.call Fn.BIO_new) = 1 := by
  have h := do_tls_handshake_count so_linger r
  by_cases hs : (do_tls_handshake so_linger r).1 = true <;>
    by_cases hc : r.close_ret = -1 <;> simp [loop_body, hs, hc, List.count_append, h]

theorem loop_body_stdout (so_linger : Bool) (r : RoundEnv) (m : Nat) (bufs : Buffers) :
    stdout_of (loop_body so_linger r m bufs).events = [] := by
  have h := stdout_of_calls _ (do_tls_handshake_calls so_linger r)
  by_cases hs : (do_tls_handshake so_linger r).1 = true <;>
    by_cases hc : r.close_ret = -1 <;>
    simp [loop_body, hs, hc, stdout_of_append, stdout_of, h]

/-- What a pass leaves in the buffers: index `m` holds the trial of the pass,
every other index is untouched. -/
theorem loop_body_bufs (so_linger : Bool) (r : RoundEnv) (m : Nat) (bufs : Buffers) :
    (loop_body so_linger r m bufs).bufs.conn_success m = (do_tls_handshake so_linger r).1 ∧
    (loop_body so_linger r m bufs).bufs.handshake_times_ms m =
      (if (do_tls_handshake so_linger r).1 then duration_ms r.start r.finish else -1) ∧
    ∀ i, i ≠ m →
      (loop_body so_linger r m bufs).bufs.conn_success i = bufs.conn_success i ∧
      (loop_body so_linger r m bufs).bufs.handshake_times_ms i = bufs.handshake_times_ms i := by
  refine ⟨?_, ?_, ?_⟩
  · by_cases hs : (do_tls_handshake so_linger r).1 = true <;>
      by_cases hc : r.close_ret = -1 <;> simp [loop_body, hs, hc]
  · by_cases hs : (do_tls_handshake so_linger r).1 = true <;>
      by_cases hc : r.close_ret = -1 <;> simp [loop_body, hs, hc]
  · intro i hi
    by_cases hs : (do_tls_handshake so_linger r).1 = true <;>
      by_cases hc : r.close_ret = -1 <;> simp [loop_body, hs, hc, Function.update, hi]

/-- The writes of a pass go to index `m` and carry the trial of the pass. -/
theorem loop_body_stores (so_linger : Bool) (r : RoundEnv) (m : Nat) (bufs : Buffers) :
    (∀ i b, Event.store_success i b ∈ (loop_body so_linger r m bufs).events →
      i = m ∧ b = (do_tls_handshake so_linger r).1) ∧
    (∀ i d, Event.store_time i d ∈ (loop_body so_linger r m bufs).events →
      i = m ∧ d = (if (do_tls_handshake so_linger r).1 then duration_ms r.start r.finish
        else -1)) := by
  have h := do_tls_handshake_calls so_linger r
  have h1 : ∀ i b, Event.store_success i b ∉ (do_tls_handshake so_linger r).2 := by
    intro i b hm
    obtain ⟨f, hf⟩ := h _ hm
    cases hf
  have h2 : ∀ i d, Event.store_time i d ∉ (do_tls_handshake so_linger r).2 := by
    intro i d hm
    obtain ⟨f, hf⟩ := h _ hm
    cases hf
  by_cases hs : (do_tls_handshake so_linger r).1 = true <;>
    by_cases hc : r.close_ret = -1 <;> simp [loop_body, hs, hc, h1, h2]

/-- A pass reads no trial buffer and prints nothing. -/
theorem loop_body_no_report (so_linger : Bool) (r : RoundEnv) (m : Nat) (bufs : Buffers) :
    ∀ e ∈ (loop_body so_linger r m bufs).events,
      (∀ i, e ≠ Event.load_time i) ∧ (∀ i, e ≠ Event.load_success i) ∧
      (∀ line text, e ≠ Event.printf line text) := by
  have h := do_tls_handshake_calls so_linger r
  have h1 : ∀ e ∈ (do_tls_handshake so_linger r).2,
      (∀ i, e ≠ Event.load_time i) ∧ (∀ i, e ≠ Event.load_success i) ∧
      (∀ line text, e ≠ Event.printf line text) := by
    intro e he
    obtain ⟨f, rfl⟩ := h e he
    simp
  by_cases hs : (do_tls_handshake so_linger r).1 = true <;>
    by_cases hc : r.close_ret = -1 <;>
    · simp only [loop_body, hs, hc]
      intro e he
      simp at he
      rcases he with he | he | he
      · subst he; simp
      · exact h1 e he
      · rcases he with rfl | rfl | rfl | rfl | rfl | rfl | rfl <;> simp

/-! ## The benchmark loop -/

theorem while_loop_exit (so_linger : Bool) (round : Nat → RoundEnv) (rounds fuel m : Nat)
    (h : rounds - m ≤ fuel) (bufs : Buffers) (hm : ¬ m < rounds) :
    while_loop so_linger round rounds fuel m h bufs =
      { ossl_error := none, measurements := m, bufs := bufs, events := [] } := by
  cases fuel with
  | zero => rfl
  | succ fuel => simp [while_loop, hm]

theorem while_loop_abort_now (so_linger : Bool) (round : Nat → RoundEnv) (rounds fuel m : Nat)
    (h : rounds - m ≤ fuel + 1) (bufs : Buffers) (hm : m < rounds)
    (hc : close_fails so_linger (round m)) :
    while_loop so_linger round rounds (fuel + 1) m h bufs =
      { ossl_error := some (-1), measurements := m,
        bufs := (loop_body so_linger (round m) m bufs).bufs,
        events := (loop_body so_linger (round m) m bufs).events } := by
  have he := loop_body_ossl_error so_linger (round m) m bufs
  rw [if_pos hc] at he
  rw [while_loop, dif_pos hm]
  simp only []
  split
  · next ret hret =>
    rw [he] at hret
    cases hret
    rfl
  · next hnone =>
    rw [he] at hnone
    cases hnone

theorem while_loop_next (so_linger : Bool) (round : Nat → RoundEnv) (rounds fuel m : Nat)
    (h : rounds - m ≤ fuel + 1) (bufs : Buffers) (hm : m < rounds)
    (hc : ¬ close_fails so_linger (round m)) :
    while_loop so_linger round rounds (fuel + 1) m h bufs =
      { while_loop so_linger round rounds fuel (m + 1) (by omega)
          (loop_body so_linger (round m) m bufs).bufs with
        events := (loop_body so_linger (round m) m bufs).events ++
          (while_loop so_linger round rounds fuel (m + 1) (by omega)
            (loop_body so_linger (round m) m bufs).bufs).events } := by
  have he := loop_body_ossl_error so_linger (round m) m bufs
  rw [if_neg hc] at he
  rw [while_loop, dif_pos hm]
  simp only []
  split
  · next ret hret =>
    rw [he] at hret
    cases hret
  · rfl

/-- When the test of line 308 fires in no pass from `m` on, the loop runs to `measurements =
rounds`, makes `rounds - m` calls of the executor, prints nothing, and leaves in
the buffers the trial of pass `i` at every index `i` from `m` to `rounds - 1`. -/
theorem while_loop_complete (so_linger : Bool) (round : Nat → RoundEnv) (rounds : Nat) :
    ∀ (fuel m : Nat) (h : rounds - m ≤ fuel) (bufs : Buffers), m ≤ rounds →
      (∀ i, m ≤ i → i < rounds → ¬ close_fails so_linger (round i)) →
      (while_loop so_linger round rounds fuel m h bufs).ossl_error = none ∧
      (while_loop so_linger round rounds fuel m h bufs).measurements = rounds ∧
      (while_loop so_linger round rounds fuel m h bufs).events.count (Event.call Fn.BIO_new)
        = rounds - m ∧
      (∀ i, m ≤ i → i < rounds →
        (while_loop so_linger round rounds fuel m h bufs).bufs.conn_success i =
          (do_tls_handshake so_linger (round i)).1 ∧
        (while_loop so_linger round rounds fuel m h bufs).bufs.handshake_times_ms i =
          (if (do_tls_handshake so_linger (round i)).1
            then duration_ms (round i).start (round i).finish else -1)) ∧
      (∀ i, i < m →
        (while_loop so_linger round rounds fuel m h bufs).bufs.conn_success i =
          bufs.conn_success i ∧
        (while_loop so_linger round rounds fuel m h bufs).bufs.handshake_times_ms i =
          bufs.handshake_times_ms i) := by
  intro fuel
  induction fuel with
  | zero =>
    intro m h bufs hm _
    have hge : ¬ m < rounds := by omega
    rw [while_loop_exit so_linger round rounds 0 m h bufs hge]
    refine ⟨rfl, by simp; omega, by simp; omega, ?_, ?_⟩
    · intro i h1 h2; omega
    · intro i _; exact ⟨rfl, rfl⟩
  | succ fuel ih =>
    intro m h bufs hm hno
    by_cases hlt : m < rounds
    · have hc := hno m (Nat.le_refl _) hlt
      rw [while_loop_next so_linger round rounds fuel m h bufs hlt hc]
      obtain ⟨r1, r2, r3, r4, r5⟩ := ih (m + 1) (by omega)
        (loop_body so_linger (round m) m bufs).bufs (by omega)
        (fun i h1 h2 => hno i (by omega) h2)
      obtain ⟨b1, b2, b3⟩ := loop_body_bufs so_linger (round m) m bufs
      refine ⟨r1, r2, ?_, ?_, ?_⟩
      · simp only [List.count_append, r3, loop_body_count]
        omega
      · intro i h1 h2
        by_cases hi : i = m
        · subst hi
          have := r5 i (Nat.lt_succ_self _)
          simp only [] at this ⊢
          rw [this.1, this.2, b1, b2]
          exact ⟨rfl, rfl⟩
        · exact r4 i (by omega) h2
      · intro i hi
        have := r5 i (by omega)
        have hb := b3 i (by omega)
        simp only [] at this ⊢
        rw [this.1, this.2, hb.1, hb.2]
        exact ⟨rfl, rfl⟩
    · rw [while_loop_exit so_linger round rounds (fuel + 1) m h bufs hlt]
      refine ⟨rfl, by simp; omega, by simp; omega, ?_, ?_⟩
      · intro i h1 h2; omega
      · intro i _; exact ⟨rfl, rfl⟩

/-- When the first pass from `m` on in which the test of line 308 fires is `k`, the loop is
left by `goto ossl_error` in pass `k` with `ret = -1`: the counter stays at `k`
and the executor has been called `k + 1 - m` times. -/
theorem while_loop_abort (so_linger : Bool) (round : Nat → RoundEnv) (rounds k : Nat)
    (hk : k < rounds) (hfail : close_fails so_linger (round k)) :
    ∀ (fuel m : Nat) (h : rounds - m ≤ fuel) (bufs : Buffers), m ≤ k →
      (∀ i, m ≤ i → i < k → ¬ close_fails so_linger (round i)) →
      (while_loop so_linger round rounds fuel m h bufs).ossl_error = some (-1) ∧
      (while_loop so_linger round rounds fuel m h bufs).measurements = k ∧
      (while_loop so_linger round rounds fuel m h bufs).events.count (Event.call Fn.BIO_new)
        = k + 1 - m := by
  intro fuel
  induction fuel with
  | zero => intro m h bufs hm _; omega
  | succ fuel ih =>
    intro m h bufs hm hno
    by_cases hmk : m = k
    · subst hmk
      rw [while_loop_abort_now so_linger round rounds fuel m h bufs hk hfail]
      refine ⟨rfl, rfl, ?_⟩
      simp only [loop_body_count]
      omega
    · have hc := hno m (Nat.le_refl _) (by omega)
      rw [while_loop_next so_linger round rounds fuel m h bufs (by omega) hc]
      obtain ⟨r1, r2, r3⟩ := ih (m + 1) (by omega)
        (loop_body so_linger (round m) m bufs).bufs (by omega)
        (fun i h1 h2 => hno i (by omega) h2)
      refine ⟨r1, r2, ?_⟩
      simp only [List.count_append, r3, loop_body_count]
      omega

/-- Whatever the outcomes, the loop prints nothing and reads no trial buffer,
every write goes to an index below `rounds` and carries the trial of the pass
with that index, and the only value `ret` can have at `goto ossl_error` is
`-1`. -/
theorem while_loop_events (so_linger : Bool) (round : Nat → RoundEnv) (rounds : Nat) :
    ∀ (fuel m : Nat) (h : rounds - m ≤ fuel) (bufs : Buffers),
      stdout_of (while_loop so_linger round rounds fuel m h bufs).events = [] ∧
      (∀ e ∈ (while_loop so_linger round rounds fuel m h bufs).events,
        (∀ i, e ≠ Event.load_time i) ∧ (∀ i, e ≠ Event.load_success i) ∧
        (∀ line text, e ≠ Event.printf line text)) ∧
      (∀ i b, Event.store_success i b ∈
          (while_loop so_linger round rounds fuel m h bufs).events →
        i < rounds ∧ b = (do_tls_handshake so_linger (round i)).1) ∧
      (∀ i d, Event.store_time i d ∈
          (while_loop so_linger round rounds fuel m h bufs).events →
        i < rounds ∧ d = (if (do_tls_handshake so_linger (round i)).1
          then duration_ms (round i).start (round i).finish else -1)) ∧
      (∀ ret, (while_loop so_linger round rounds fuel m h bufs).ossl_error = some ret →
        ret = -1) := by
  intro fuel
  induction fuel with
  | zero =>
    intro m h bufs
    simp [while_loop, stdout_of]
  | succ fuel ih =>
    intro m h bufs
    by_cases hlt : m < rounds
    · obtain ⟨s1, s2⟩ := loop_body_stores so_linger (round m) m bufs
      by_cases hc : close_fails so_linger (round m)
      · rw [while_loop_abort_now so_linger round rounds fuel m h bufs hlt hc]
        refine ⟨loop_body_stdout _ _ _ _, loop_body_no_report _ _ _ _, ?_, ?_, ?_⟩
        · intro i b hmem
          obtain ⟨rfl, hb⟩ := s1 i b hmem
          exact ⟨hlt, hb⟩
        · intro i d hmem
          obtain ⟨rfl, hd⟩ := s2 i d hmem
          exact ⟨hlt, hd⟩
        · intro ret hret
          cases hret
          rfl
      · rw [while_loop_next so_linger round rounds fuel m h bufs hlt hc]
        obtain ⟨r1, r2, r3, r4, r5⟩ := ih (m + 1) (by omega)
          (loop_body so_linger (round m) m bufs).bufs
        refine ⟨?_, ?_, ?_, ?_, r5⟩
        · simp only [stdout_of_append, loop_body_stdout, r1, List.append_nil]
        · intro e he
          rcases List.mem_append.mp he with he | he
          · exact loop_body_no_report _ _ _ _ e he
          · exact r2 e he
        · intro i b hmem
          rcases List.mem_append.mp hmem with he | he
          · obtain ⟨rfl, hb⟩ := s1 i b he
            exact ⟨hlt, hb⟩
          · exact r3 i b he
        · intro i d hmem
          rcases List.mem_append.mp hmem with he | he
          · obtain ⟨rfl, hd⟩ := s2 i d he
            exact ⟨hlt, hd⟩
          · exact r4 i d he
    · rw [while_loop_exit so_linger round rounds (fuel + 1) m h bufs hlt]
      simp [stdout_of]

/-! ## Formatting -/

theorem digit_char_ne_comma (d : Nat) : digit_char d ≠ ',' := by
  unfold digit_char
  have h : d % 10 < 10 := Nat.mod_lt _ (by decide)
  generalize d % 10 = k at h
  interval_cases k <;> decide

theorem dec_digits_no_comma : ∀ fuel n, ',' ∉ dec_digits fuel n := by
  intro fuel
  induction fuel with
  | zero => intro n; simp [dec_digits]
  | succ fuel ih =>
    intro n
    unfold dec_digits
    split_ifs with hn
    · simpa using (digit_char_ne_comma n).symm
    · simp only [List.mem_append, List.mem_singleton, not_or]
      exact ⟨ih _, (digit_char_ne_comma n).symm⟩

theorem fmt_f_no_comma (q : ℚ) : ',' ∉ fmt_f q := by
  unfold fmt_f nat_text
  have hd := fun d => (digit_char_ne_comma d).symm
  have hn := dec_digits_no_comma (micro_round q / 1000000 + 1) (micro_round q / 1000000)
  split_ifs <;> simp [hd, hn]

/-- A token contains no comma. -/
theorem token_no_comma (d : ℚ) (b : Bool) : ',' ∉ token d b := by
  unfold token fmt_i
  have h := fmt_f_no_comma d
  cases b <;> simp [h]

/-! ## The reporting step -/

theorem size_sub_one (n : Nat) (h1 : 1 ≤ n) (h2 : n < SIZE) : size_sub n 1 = n - 1 := by
  unfold size_sub SIZE at *
  omega

theorem stdout_of_report_at (bufs : Buffers) (line : Nat) (text : ℚ → Bool → List Char)
    (l : List Nat) :
    stdout_of (l.map fun i => report_at bufs i line text).flatten =
      (l.map fun i => text (bufs.handshake_times_ms i) (bufs.conn_success i)).flatten := by
  induction l with
  | nil => rfl
  | cons i l ih =>
    simp only [List.map_cons, List.flatten_cons, stdout_of_append, ih]
    simp [report_at, stdout_of]

theorem intercalate_snoc (sep : List Char) (l : List (List Char)) (x : List Char) :
    (l.map fun t => t ++ sep).flatten ++ x = List.intercalate sep (l ++ [x]) := by
  induction l with
  | nil => simp [List.intercalate, List.intersperse]
  | cons t l ih =>
    cases l with
    | nil => simp [List.intercalate, List.intersperse]
    | cons u l =>
      simp only [List.intercalate] at ih ⊢
      simp only [List.map_cons, List.flatten_cons, List.cons_append, List.intersperse,
        List.append_assoc] at ih ⊢
      rw [ih]
      rfl

/-- For a counter `n` from 1 to `SIZE - 1`, what lines 320-324 write is the
tokens of the trials at indices `0 .. n - 1`, in that order, joined by `,`. -/
theorem stdout_of_report (bufs : Buffers) (n : Nat) (h1 : 1 ≤ n) (h2 : n < SIZE) :
    stdout_of (report bufs n) = List.intercalate [','] ((List.range n).map fun i =>
      token (bufs.handshake_times_ms i) (bufs.conn_success i)) := by
  obtain ⟨k, rfl⟩ : ∃ k, n = k + 1 := ⟨n - 1, by omega⟩
  unfold report
  rw [size_sub_one (k + 1) h1 h2, stdout_of_append, stdout_of_report_at]
  simp only [Nat.add_sub_cancel, report_at, stdout_of, List.append_nil, token_comma]
  rw [List.range_succ, List.map_append, List.map_singleton, ← intercalate_snoc]
  simp [List.map_map, Function.comp_def]

/-! ## The whole run -/

theorem reported_output_append (xs ys : List Event) :
    reported_output (xs ++ ys) = reported_output xs ++ reported_output ys := by
  induction xs with
  | nil => rfl
  | cons e es ih =>
    cases e <;> simp [reported_output, ih]
    split_ifs <;> simp

theorem reported_output_nil_of (es : List Event)
    (h : ∀ e ∈ es, ∀ text, e ≠ Event.printf 321 text ∧ e ≠ Event.printf 323 text) :
    reported_output es = [] := by
  induction es with
  | nil => rfl
  | cons e es ih =>
    have ih1 := ih (fun e he => h e (List.mem_cons_of_mem _ he))
    have h0 := h e (List.mem_cons_self _ _)
    cases e <;> simp [reported_output, ih1]
    next line text =>
      rintro (rfl | rfl)
      · exact ((h0 text).1 rfl).elim
      · exact ((h0 text).2 rfl).elim

theorem not_of_rounds_no_token (e : Event) (h : e.of_rounds = false) :
    ∀ text, e ≠ Event.printf 321 text ∧ e ≠ Event.printf 323 text := by
  intro text
  constructor <;> rintro rfl <;> simp [Event.of_rounds] at h

theorem reported_output_report_at (bufs : Buffers) (l : List Nat) :
    reported_output (l.map fun i => report_at bufs i 321 token_comma).flatten =
      stdout_of (l.map fun i => report_at bufs i 321 token_comma).flatten := by
  induction l with
  | nil => rfl
  | cons i l ih =>
    simp only [List.map_cons, List.flatten_cons, reported_output_append, stdout_of_append, ih]
    simp [report_at, reported_output, stdout_of]

theorem reported_output_report_last (bufs : Buffers) (i : Nat) :
    reported_output (report_at bufs i 323 token) = stdout_of (report_at bufs i 323 token) := by
  simp [report_at, reported_output, stdout_of]

theorem reported_output_report (bufs : Buffers) (n : Nat) :
    reported_output (report bufs n) = stdout_of (report bufs n) := by
  unfold report
  rw [reported_output_append, stdout_of_append, reported_output_report_at,
    reported_output_report_last]

theorem count_eq_zero_of_not_of_rounds (es : List Event)
    (h : ∀ e ∈ es, e.of_rounds = false) : es.count (Event.call Fn.BIO_new) = 0 := by
  rw [List.count_eq_zero]
  intro hmem
  have := h _ hmem
  simp [Event.of_rounds] at this

theorem report_count (bufs : Buffers) (n : Nat) :
    (report bufs n).count (Event.call Fn.BIO_new) = 0 := by
  rw [List.count_eq_zero]
  unfold report
  simp [report_at]

theorem main_body_returned (arguments : Arguments) (env : Env) (ret : Int)
    (events : List Event) (h : configure arguments env = Config.returned ret events) :
    main_body arguments env =
      { ret := ret, trace := events, bufs := heap env, measurements := 0 } := by
  simp [main_body, h]

theorem main_body_config_error (arguments : Arguments) (env : Env) (ret : Int)
    (events : List Event) (h : configure arguments env = Config.ossl_error ret events) :
    main_body arguments env =
      { ret := ret, trace := events ++ at_ossl_error ++ at_end, bufs := heap env,
        measurements := 0 } := by
  simp [main_body, h]

theorem main_body_loop_error (arguments : Arguments) (env : Env) (ret : Int)
    (events : List Event) (h : configure arguments env = Config.ready events)
    (hl : (bench_loop arguments env).ossl_error = some ret) :
    main_body arguments env =
      { ret := ret,
        trace := events ++ (bench_loop arguments env).events ++ at_ossl_error ++ at_end,
        bufs := (bench_loop arguments env).bufs,
        measurements := (bench_loop arguments env).measurements } := by
  simp [main_body, h, hl]

theorem main_body_reported (arguments : Arguments) (env : Env)
    (events : List Event) (h : configure arguments env = Config.ready events)
    (hl : (bench_loop arguments env).ossl_error = none) :
    main_body arguments env =
      { ret := 0,
        trace := events ++ (bench_loop arguments env).events ++
          report (bench_loop arguments env).bufs (bench_loop arguments env).measurements ++
          at_end,
        bufs := (bench_loop arguments env).bufs,
        measurements := (bench_loop arguments env).measurements } := by
  simp [main_body, h, hl]

theorem bench_loop_complete (arguments : Arguments) (env : Env)
    (hclose : ∀ i, i < arguments.rounds → ¬ close_fails env.so_linger_defined (env.round i)) :
    (bench_loop arguments env).ossl_error = none ∧
    (bench_loop arguments env).measurements = arguments.rounds ∧
    (bench_loop arguments env).events.count (Event.call Fn.BIO_new) = arguments.rounds ∧
    (∀ i, i < arguments.rounds →
      (bench_loop arguments env).bufs.conn_success i =
        (do_tls_handshake env.so_linger_defined (env.round i)).1 ∧
      (bench_loop arguments env).bufs.handshake_times_ms i =
        (if (do_tls_handshake env.so_linger_defined (env.round i)).1
          then duration_ms (env.round i).start (env.round i).finish else -1)) := by
  obtain ⟨h1, h2, h3, h4, _⟩ := while_loop_complete env.so_linger_defined env.round
    arguments.rounds arguments.rounds 0 (Nat.sub_le _ _) (heap env) (Nat.zero_le _)
    (fun i _ hi => hclose i hi)
  exact ⟨h1, h2, by simpa using h3, fun i hi => h4 i (Nat.zero_le _) hi⟩

theorem bench_loop_events (arguments : Arguments) (env : Env) :
    stdout_of (bench_loop arguments env).events = [] ∧
    (∀ e ∈ (bench_loop arguments env).events,
      (∀ i, e ≠ Event.load_time i) ∧ (∀ i, e ≠ Event.load_success i) ∧
      (∀ line text, e ≠ Event.printf line text)) ∧
    (∀ i b, Event.store_success i b ∈ (bench_loop arguments env).events →
      i < arguments.rounds ∧ b = (do_tls_handshake env.so_linger_defined (env.round i)).1) ∧
    (∀ i d, Event.store_time i d ∈ (bench_loop arguments env).events →
      i < arguments.rounds ∧ d = (if (do_tls_handshake env.so_linger_defined (env.round i)).1
        then duration_ms (env.round i).start (env.round i).finish else -1)) ∧
    (∀ ret, (bench_loop arguments env).ossl_error = some ret → ret = -1) :=
  while_loop_events env.so_linger_defined env.round arguments.rounds arguments.rounds 0
    (Nat.sub_le _ _) (heap env)

theorem at_end_count : at_end.count (Event.call Fn.BIO_new) = 0 := by decide

/-- C2: for every rounds value `N ≥ 1` (a `size_t`) and every mix of handshake
outcomes, when configuration succeeds and no socket close fails, the run calls
the handshake executor exactly `N` times (each call starts with the one
`BIO_new` of the program), leaves the loop with `measurements = N`, holds at
every index `i < N` the outcome of the `i`-th call (success flag, and the
duration or `-1`), and the output of the reporting step splits on `,` into
exactly `N` tokens, the token of trial `i` at position `i`. -/
theorem C2_rounds_trials_tokens (arguments : Arguments) (env : Env)
    (hN : 1 ≤ arguments.rounds) (hsize : arguments.rounds < SIZE)
    (hcfg : steps_ok arguments env)
    (hclose : ∀ i, i < arguments.rounds → ¬ close_fails env.so_linger_defined (env.round i)) :
    (main_body arguments env).trace.count (Event.call Fn.BIO_new) = arguments.rounds ∧
    (main_body arguments env).measurements = arguments.rounds ∧
    (∀ i, i < arguments.rounds →
      (main_body arguments env).bufs.conn_success i =
        (do_tls_handshake env.so_linger_defined (env.round i)).1 ∧
      (main_body arguments env).bufs.handshake_times_ms i =
        (if (do_tls_handshake env.so_linger_defined (env.round i)).1
          then duration_ms (env.round i).start (env.round i).finish else -1)) ∧
    (List.splitOn ',' (reported_output (main_body arguments env).trace)).length
      = arguments.rounds ∧
    List.splitOn ',' (reported_output (main_body arguments env).trace) =
      (List.range arguments.rounds).map fun i =>
        token ((main_body arguments env).bufs.handshake_times_ms i)
          ((main_body arguments env).bufs.conn_success i) := by
  obtain ⟨l1, l2, l3, l4⟩ := bench_loop_complete arguments env hclose
  have hc := configure_ready arguments env hcfg
  have hne := configure_events_not_of_rounds arguments env
  rw [hc] at hne
  simp only [Config.events] at hne
  obtain ⟨_, le2, _⟩ := bench_loop_events arguments env
  have hsplit : List.splitOn ',' (reported_output (main_body arguments env).trace) =
      (List.range arguments.rounds).map fun i =>
        token ((main_body arguments env).bufs.handshake_times_ms i)
          ((main_body arguments env).bufs.conn_success i) := by
    rw [main_body_reported arguments env _ hc l1]
    simp only [reported_output_append]
    rw [reported_output_nil_of _ (fun e he => not_of_rounds_no_token e (hne e he)),
      reported_output_nil_of _ (fun e he text => ⟨(le2 e he).2.2 _ _, (le2 e he).2.2 _ _⟩),
      reported_output_nil_of at_end (by simp [at_end]), l2, reported_output_report,
      stdout_of_report _ _ hN hsize]
    simp only [List.nil_append, List.append_nil]
    apply List.splitOn_intercalate
    · intro t ht
      obtain ⟨i, _, rfl⟩ := List.mem_map.mp ht
      exact token_no_comma _ _
    · intro hnil
      have := congrArg List.length hnil
      simp at this
      omega
  refine ⟨?_, ?_, ?_, ?_, hsplit⟩
  · rw [main_body_reported arguments env _ hc l1]
    simp only [List.count_append, l3, report_count, at_end_count,
      count_eq_zero_of_not_of_rounds _ hne]
    omega
  · rw [main_body_reported arguments env _ hc l1]
    exact l2
  · rw [main_body_reported arguments env _ hc l1]
    exact l4
  · rw [hsplit]
    simp

/-- Every event of a run comes from the configuration phase, from the loop,
from the reporting step, or from the two exit labels. -/
theorem main_body_trace_mem (arguments : Arguments) (env : Env) (e : Event)
    (he : e ∈ (main_body arguments env).trace) :
    e ∈ (configure arguments env).events ∨ e ∈ (bench_loop arguments env).events ∨
    e ∈ report (bench_loop arguments env).bufs (bench_loop arguments env).measurements ∨
    e ∈ at_ossl_error ∨ e ∈ at_end := by
  cases hc : configure arguments env with
  | returned ret events =>
    rw [main_body_returned arguments env ret events hc] at he
    exact Or.inl he
  | ossl_error ret events =>
    rw [main_body_config_error arguments env ret events hc] at he
    simp only [List.mem_append] at he
    rcases he with (he | he) | he
    · exact Or.inl he
    · exact Or.inr (Or.inr (Or.inr (Or.inl he)))
    · exact Or.inr (Or.inr (Or.inr (Or.inr he)))
  | ready events =>
    cases hl : (bench_loop arguments env).ossl_error with
    | some ret =>
      rw [main_body_loop_error arguments env ret events hc hl] at he
      simp only [List.mem_append] at he
      rcases he with ((he | he) | he) | he
      · exact Or.inl he
      · exact Or.inr (Or.inl he)
      · exact Or.inr (Or.inr (Or.inr (Or.inl he)))
      · exact Or.inr (Or.inr (Or.inr (Or.inr he)))
    | none =>
      rw [main_body_reported arguments env events hc hl] at he
      simp only [List.mem_append] at he
      rcases he with ((he | he) | he) | he
      · exact Or.inl he
      · exact Or.inr (Or.inl he)
      · exact Or.inr (Or.inr (Or.inl he))
      · exact Or.inr (Or.inr (Or.inr (Or.inr he)))

theorem report_mem (bufs : Buffers) (n : Nat) (e : Event) (he : e ∈ report bufs n) :
    (∃ i, e = Event.load_time i) ∨ (∃ i, e = Event.load_success i) ∨
    (∃ text, e = Event.printf 321 text) ∨ (∃ text, e = Event.printf 323 text) := by
  unfold report at he
  simp only [List.mem_append, List.mem_flatten, List.mem_map, List.mem_range] at he
  rcases he with ⟨l, ⟨i, _, rfl⟩, he⟩ | he
  · simp only [report_at, List.mem_cons, List.mem_singleton, List.not_mem_nil, or_false] at he
    rcases he with rfl | rfl | rfl
    · exact Or.inl ⟨_, rfl⟩
    · exact Or.inr (Or.inl ⟨_, rfl⟩)
    · exact Or.inr (Or.inr (Or.inl ⟨_, rfl⟩))
  · simp only [report_at, List.mem_cons, List.mem_singleton, List.not_mem_nil, or_false] at he
    rcases he with rfl | rfl | rfl
    · exact Or.inl ⟨_, rfl⟩
    · exact Or.inr (Or.inl ⟨_, rfl⟩)
    · exact Or.inr (Or.inr (Or.inr ⟨_, rfl⟩))

/-- A write to a trial buffer found in the trace of a run is a write of the
loop. -/
theorem store_mem_loop (arguments : Arguments) (env : Env) (e : Event)
    (hs : (∃ i b, e = Event.store_success i b) ∨ (∃ i d, e = Event.store_time i d))
    (he : e ∈ (main_body arguments env).trace) : e ∈ (bench_loop arguments env).events := by
  rcases main_body_trace_mem arguments env e he with h | h | h | h | h
  · have := configure_events_not_of_rounds arguments env e h
    rcases hs with ⟨i, b, rfl⟩ | ⟨i, d, rfl⟩ <;> simp [Event.of_rounds] at this
  · exact h
  · rcases report_mem _ _ e h with ⟨j, rfl⟩ | ⟨j, rfl⟩ | ⟨t, rfl⟩ | ⟨t, rfl⟩ <;>
      rcases hs with ⟨i, b, hb⟩ | ⟨i, d, hd⟩ <;> simp at *
  · rcases hs with ⟨i, b, rfl⟩ | ⟨i, d, rfl⟩ <;> simp [at_ossl_error] at h
  · rcases hs with ⟨i, b, rfl⟩ | ⟨i, d, rfl⟩ <;> simp [at_end] at h

/-- With both `tv_nsec` in `[0, 10^9)` and `finish` not earlier than `start`,
the duration expression of lines 303-304 is not negative. -/
theorem duration_ms_nonneg (start finish : Timespec) (h : valid_interval start finish) :
    0 ≤ duration_ms start finish := by
  obtain ⟨h1, h2, h3, h4, h5⟩ := h
  have hz : (0 : Int) ≤ (finish.tv_sec - start.tv_sec) * 1000000000 +
      (finish.tv_nsec - start.tv_nsec) := by
    rcases h5 with h5 | ⟨h5, h6⟩
    · nlinarith
    · rw [h5]; simp; omega
  have heq : duration_ms start finish =
      (((finish.tv_sec - start.tv_sec) * 1000000000 +
        (finish.tv_nsec - start.tv_nsec) : Int) : ℚ) / 1000000 := by
    unfold duration_ms MS_IN_S NS_IN_MS
    push_cast
    ring
  rw [heq]
  exact div_nonneg (by exact_mod_cast hz) (by norm_num)

/-- C3: every trial the loop records (the two writes at an index `i`) is the
outcome of round `i`: the success flag is the executor's result; a failed
handshake is recorded as exactly `-1`; a successful one is recorded with
`(t1.tv_sec - t0.tv_sec) * 1000 + (t1.tv_nsec - t0.tv_nsec) / 1000000` in exact
rational arithmetic, which is not negative whenever both `tv_nsec` are in
`[0, 10^9)` and `t1` is not earlier than `t0`. -/
theorem C3_trial_values (arguments : Arguments) (env : Env) (i : Nat) (b : Bool) (d : ℚ)
    (hb : Event.store_success i b ∈ (main_body arguments env).trace)
    (hd : Event.store_time i d ∈ (main_body arguments env).trace) :
    b = (do_tls_handshake env.so_linger_defined (env.round i)).1 ∧
    (b = false → d = -1) ∧
    (b = true →
      d = (((env.round i).finish.tv_sec - (env.round i).start.tv_sec) * 1000 : Int) +
        (((env.round i).finish.tv_nsec - (env.round i).start.tv_nsec : Int) : ℚ) / 1000000 ∧
      d = duration_ms (env.round i).start (env.round i).finish ∧
      (valid_interval (env.round i).start (env.round i).finish → 0 ≤ d)) := by
  obtain ⟨_, _, s1, s2, _⟩ := bench_loop_events arguments env
  obtain ⟨_, hb1⟩ := s1 i b (store_mem_loop arguments env _ (Or.inl ⟨i, b, rfl⟩) hb)
  obtain ⟨_, hd1⟩ := s2 i d (store_mem_loop arguments env _ (Or.inr ⟨i, d, rfl⟩) hd)
  refine ⟨hb1, ?_, ?_⟩
  · intro hf
    rw [hd1, ← hb1, hf]
    simp
  · intro ht
    have hd2 : d = duration_ms (env.round i).start (env.round i).finish := by
      rw [hd1, ← hb1, ht]
      simp
    refine ⟨?_, hd2, ?_⟩
    · rw [hd2]
      rfl
    · intro hv
      rw [hd2]
      exact duration_ms_nonneg _ _ hv

/-! ## The value of a rendered duration -/

theorem digit_char_facts (d : Nat) :
    digit_value (digit_char d) = d % 10 ∧ digit_char d ≠ '.' ∧ digit_char d ≠ '-' ∧
    (digit_char d).isDigit = true ∧ (digit_char d = '0' → d % 10 = 0) := by
  unfold digit_char
  have h : d % 10 < 10 := Nat.mod_lt _ (by decide)
  generalize d % 10 = k at h
  interval_cases k <;> decide

theorem read_nat_snoc (cs : List Char) (c : Char) :
    read_nat (cs ++ [c]) = 10 * read_nat cs + digit_value c := by
  simp [read_nat, List.foldl_append]

theorem dec_digits_digit : ∀ fuel n, ∀ c ∈ dec_digits fuel n, ∃ d, c = digit_char d := by
  intro fuel
  induction fuel with
  | zero => intro n c hc; simp [dec_digits] at hc
  | succ fuel ih =>
    intro n c hc
    unfold dec_digits at hc
    split_ifs at hc with hn
    · exact ⟨n, by simpa using hc⟩
    · rcases List.mem_append.mp hc with h | h
      · exact ih _ c h
      · exact ⟨n, by simpa using h⟩

/-- Reading the decimal numeral of `n` gives `n` back. -/
theorem read_nat_dec_digits : ∀ fuel n, n < 10 ^ fuel → read_nat (dec_digits fuel n) = n := by
  intro fuel
  induction fuel with
  | zero =>
    intro n hn
    simp at hn
    simp [dec_digits, read_nat, hn]
  | succ fuel ih =>
    intro n hn
    unfold dec_digits
    split_ifs with h10
    · have := (digit_char_facts n).1
      simp [read_nat, this]
      omega
    · have hlt : n / 10 < 10 ^ fuel := by
        rw [Nat.div_lt_iff_lt_mul (by decide)]
        rw [pow_succ] at hn
        exact hn
      rw [read_nat_snoc, ih _ hlt, (digit_char_facts n).1]
      omega

theorem lt_ten_pow_succ (n : Nat) : n < 10 ^ (n + 1) :=
  Nat.lt_of_lt_of_le (Nat.lt_pow_self (by decide) n) (Nat.pow_le_pow_right (by decide) (by omega))

theorem read_nat_nat_text (n : Nat) : read_nat (nat_text n) = n :=
  read_nat_dec_digits _ _ (lt_ten_pow_succ n)

theorem nat_text_ne_nil (n : Nat) : nat_text n ≠ [] := by
  unfold nat_text dec_digits
  split_ifs <;> simp

/-- The decimal numeral of `n` has no leading zero, unless it is `0` itself. -/
theorem dec_digits_head : ∀ fuel n, 1 ≤ n → n < 10 ^ fuel →
    ∃ c rest, dec_digits fuel n = c :: rest ∧ c ≠ '0' := by
  intro fuel
  induction fuel with
  | zero => intro n h1 hn; simp at hn; omega
  | succ fuel ih =>
    intro n h1 hn
    unfold dec_digits
    split_ifs with h10
    · refine ⟨_, [], rfl, ?_⟩
      intro h0
      have := (digit_char_facts n).2.2.2.2 h0
      omega
    · have hlt : n / 10 < 10 ^ fuel := by
        rw [Nat.div_lt_iff_lt_mul (by decide)]
        rw [pow_succ] at hn
        exact hn
      obtain ⟨c, rest, hc, hne⟩ := ih (n / 10) (by omega) hlt
      exact ⟨c, rest ++ [digit_char n], by rw [hc]; rfl, hne⟩

theorem takeWhile_stop (p : Char → Bool) (w : List Char) (x : Char) (f : List Char)
    (hw : ∀ c ∈ w, p c = true) (hx : p x = false) :
    (w ++ x :: f).takeWhile p = w ∧ (w ++ x :: f).dropWhile p = x :: f := by
  induction w with
  | nil => simp [List.takeWhile, List.dropWhile, hx]
  | cons c w ih =>
    have hc := hw c (List.mem_cons_self _ _)
    have := ih (fun c hc => hw c (List.mem_cons_of_mem _ hc))
    simp [List.takeWhile, List.dropWhile, hc, this]

theorem read_six_digits (m : Nat) :
    read_nat [digit_char (m / 100000), digit_char (m / 10000), digit_char (m / 1000),
      digit_char (m / 100), digit_char (m / 10), digit_char m] = m % 1000000 := by
  simp only [read_nat, List.foldl, (digit_char_facts _).1]
  omega

/-- What the text of `%f` denotes: the scaled and rounded value over `10^6`,
with the sign of the argument. -/
theorem read_decimal_fmt_f (q : ℚ) :
    read_decimal (fmt_f q) =
      (if q.num < 0 then -1 else 1) * ((micro_round q : ℚ) / 1000000) := by
  have hw : ∀ c ∈ nat_text (micro_round q / 1000000), (c != '.') = true := by
    intro c hc
    obtain ⟨d, rfl⟩ := dec_digits_digit _ _ c hc
    simpa using (digit_char_facts d).2.1
  have hu : read_unsigned (nat_text (micro_round q / 1000000) ++ '.' ::
      [digit_char (micro_round q / 100000), digit_char (micro_round q / 10000),
       digit_char (micro_round q / 1000), digit_char (micro_round q / 100),
       digit_char (micro_round q / 10), digit_char (micro_round q)]) =
      (micro_round q : ℚ) / 1000000 := by
    obtain ⟨t1, t2⟩ := takeWhile_stop (fun c => c != '.') _ '.' _ hw (by decide)
    unfold read_unsigned
    rw [t1, t2, List.drop_one, List.tail_cons, read_nat_nat_text, read_six_digits]
    have hm := Nat.div_add_mod (micro_round q) 1000000
    have hq : ((micro_round q : ℕ) : ℚ) =
        1000000 * ((micro_round q / 1000000 : ℕ) : ℚ) + ((micro_round q % 1000000 : ℕ) : ℚ) := by
      exact_mod_cast hm.symm
    simp only [List.length_cons, List.length_nil]
    rw [hq]
    norm_num
    ring
  obtain ⟨c, rest, hcr⟩ : ∃ c rest, nat_text (micro_round q / 1000000) = c :: rest := by
    cases h : nat_text (micro_round q / 1000000) with
    | nil => exact (nat_text_ne_nil _ h).elim
    | cons c rest => exact ⟨c, rest, rfl⟩
  have hc : c ≠ '-' := by
    have hmem : c ∈ nat_text (micro_round q / 1000000) := by rw [hcr]; exact List.mem_cons_self _ _
    obtain ⟨d, rfl⟩ := dec_digits_digit _ _ c hmem
    exact (digit_char_facts d).2.2.1
  unfold fmt_f
  by_cases hneg : q.num < 0
  · simp only [hneg, if_true, List.append_assoc, List.singleton_append, List.cons_append,
      List.nil_append, read_decimal]
    rw [hu]
    ring
  · simp only [hneg, if_false, List.append_assoc, List.singleton_append, List.nil_append]
    rw [← hu, hcr]
    simp only [List.cons_append, read_decimal, hc, if_false]
    ring

theorem abs_eq_natAbs_div (q : ℚ) : |q| = (q.num.natAbs : ℚ) / (q.den : ℚ) := by
  have h : ((q.num.natAbs : ℕ) : ℚ) = abs (q.num : ℚ) := by
    rw [Nat.cast_natAbs, Int.cast_abs]
  rw [h, ← Nat.abs_cast q.den, ← abs_div, Rat.num_div_den]

/-- The scaled value is rounded to a nearest integer. -/
theorem micro_round_near (q : ℚ) :
    |(micro_round q : ℚ) / 1000000 - abs q| ≤ 1 / 2000000 := by
  have hd : (0 : ℚ) < (q.den : ℚ) := by exact_mod_cast q.den_pos
  have hdn : 0 < q.den := q.den_pos
  have hdiv := Nat.div_add_mod (q.num.natAbs * 1000000) q.den
  have hmod := Nat.mod_lt (q.num.natAbs * 1000000) hdn
  have hN : ((q.num.natAbs : ℕ) : ℚ) * 1000000 =
      (q.den : ℚ) * ((q.num.natAbs * 1000000 / q.den : ℕ) : ℚ) +
        ((q.num.natAbs * 1000000 % q.den : ℕ) : ℚ) := by
    exact_mod_cast hdiv.symm
  have hr0 : (0 : ℚ) ≤ ((q.num.natAbs * 1000000 % q.den : ℕ) : ℚ) := Nat.cast_nonneg _
  have habs : |q| = ((q.den : ℚ) * ((q.num.natAbs * 1000000 / q.den : ℕ) : ℚ) +
      ((q.num.natAbs * 1000000 % q.den : ℕ) : ℚ)) / ((q.den : ℚ) * 1000000) := by
    rw [← hN, abs_eq_natAbs_div]
    field_simp
    ring
  rw [habs, abs_le]
  unfold micro_round
  simp only []
  split_ifs with hup
  · have h2 : (q.den : ℚ) ≤ 2 * ((q.num.natAbs * 1000000 % q.den : ℕ) : ℚ) := by
      have : q.den ≤ 2 * (q.num.natAbs * 1000000 % q.den) := by omega
      exact_mod_cast this
    have h3 : ((q.num.natAbs * 1000000 % q.den : ℕ) : ℚ) < (q.den : ℚ) := by
      exact_mod_cast hmod
    push_cast
    constructor
    · rw [div_sub_div _ _ (by norm_num) (by positivity), le_div_iff₀ (by positivity)]
      nlinarith
    · rw [div_sub_div _ _ (by norm_num) (by positivity), div_le_iff₀ (by positivity)]
      nlinarith
  · have h2 : 2 * ((q.num.natAbs * 1000000 % q.den : ℕ) : ℚ) ≤ (q.den : ℚ) := by
      have : 2 * (q.num.natAbs * 1000000 % q.den) ≤ q.den := by omega
      exact_mod_cast this
    constructor
    · rw [div_sub_div _ _ (by norm_num) (by positivity), le_div_iff₀ (by positivity)]
      nlinarith
    · rw [div_sub_div _ _ (by norm_num) (by positivity), div_le_iff₀ (by positivity)]
      nlinarith

/-- The text of `%f` denotes a value within half a unit of the sixth decimal
place of the argument. -/
theorem read_decimal_fmt_f_near (q : ℚ) : |read_decimal (fmt_f q) - q| ≤ 1 / 2000000 := by
  have h := micro_round_near q
  rw [read_decimal_fmt_f]
  by_cases hneg : q.num < 0
  · have hq : q < 0 := Rat.num_neg.mp hneg
    rw [abs_of_neg hq] at h
    rw [if_pos hneg, ← abs_neg]
    have : -(-1 * ((micro_round q : ℚ) / 1000000) - q) =
        (micro_round q : ℚ) / 1000000 - -q := by ring
    rw [this]
    exact h
  · have hq : 0 ≤ q := Rat.num_nonneg.mp (not_lt.mp hneg)
    rw [abs_of_nonneg hq] at h
    rw [if_neg hneg, one_mul]
    exact h

/-- A value with at most six decimal places is rendered exactly. -/
theorem read_decimal_fmt_f_exact (q : ℚ) (k : Int) (hk : q = (k : ℚ) / 1000000) :
    read_decimal (fmt_f q) = q := by
  have h := read_decimal_fmt_f_near q
  rw [read_decimal_fmt_f] at h ⊢
  have hz : ∃ z : Int, (if q.num < 0 then (-1 : ℚ) else 1) * ((micro_round q : ℚ) / 1000000) =
      (z : ℚ) / 1000000 := by
    by_cases hneg : q.num < 0
    · exact ⟨-(micro_round q : Int), by rw [if_pos hneg]; push_cast; ring⟩
    · exact ⟨(micro_round q : Int), by rw [if_neg hneg]; push_cast; ring⟩
  obtain ⟨z, hz⟩ := hz
  rw [hz] at h ⊢
  rw [hk] at h ⊢
  rw [← sub_div, abs_div, div_le_iff₀ (by positivity)] at h
  norm_num at h
  have h1 : |((z - k : Int) : ℚ)| ≤ 1 / 2 := by
    push_cast
    exact h
  have h2 : |(z - k : Int)| < 1 := by
    have : |((z - k : Int) : ℚ)| < 1 := lt_of_le_of_lt h1 (by norm_num)
    rw [← Int.cast_abs] at this
    exact_mod_cast this
  have h3 : z - k = 0 := Int.abs_lt_one_iff.mp h2
  have h4 : z = k := by omega
  rw [h4]

/-- Every duration the loop computes has at most six decimal places. -/
theorem duration_ms_micro (start finish : Timespec) :
    duration_ms start finish =
      (((finish.tv_sec - start.tv_sec) * 1000000000 +
        (finish.tv_nsec - start.tv_nsec) : Int) : ℚ) / 1000000 := by
  unfold duration_ms MS_IN_S NS_IN_MS
  push_cast
  ring

/-- The text of `%f` starts with `-` exactly for a negative argument. -/
theorem fmt_f_sign (q : ℚ) : (∃ rest, fmt_f q = '-' :: rest) ↔ q < 0 := by
  obtain ⟨c, rest, hcr⟩ : ∃ c rest, nat_text (micro_round q / 1000000) = c :: rest := by
    cases h : nat_text (micro_round q / 1000000) with
    | nil => exact (nat_text_ne_nil _ h).elim
    | cons c rest => exact ⟨c, rest, rfl⟩
  have hc : c ≠ '-' := by
    have hmem : c ∈ nat_text (micro_round q / 1000000) := by rw [hcr]; exact List.mem_cons_self _ _
    obtain ⟨d, rfl⟩ := dec_digits_digit _ _ c hmem
    exact (digit_char_facts d).2.2.1
  unfold fmt_f
  by_cases hneg : q.num < 0
  · have hq : q < 0 := Rat.num_neg.mp hneg
    simp [hneg, hq]
  · have hq : ¬ q < 0 := not_lt.mpr (Rat.num_nonneg.mp (not_lt.mp hneg))
    simp [hneg, hq, hcr, hc]

/-- The shape of the text of `%f`: an optional `-`, the decimal numeral of the
whole part without leading zeros, a point, and exactly six digits. -/
theorem fmt_f_digits (q : ℚ) :
    ∃ whole frac, fmt_f q = (if q < 0 then ['-'] else []) ++ whole ++ '.' :: frac ∧
      whole ≠ [] ∧ frac.length = 6 ∧ (∀ c ∈ whole ++ frac, c.isDigit = true) ∧
      (∀ rest, whole = '0' :: rest → rest = []) := by
  refine ⟨nat_text (micro_round q / 1000000),
    [digit_char (micro_round q / 100000), digit_char (micro_round q / 10000),
     digit_char (micro_round q / 1000), digit_char (micro_round q / 100),
     digit_char (micro_round q / 10), digit_char (micro_round q)], ?_, nat_text_ne_nil _, rfl,
    ?_, ?_⟩
  · have hs : (q.num < 0) ↔ q < 0 := Rat.num_neg
    unfold fmt_f
    by_cases hneg : q.num < 0
    · simp [hneg, hs.mp hneg]
    · have hq : 0 ≤ q := Rat.num_nonneg.mp (not_lt.mp hneg)
      simp [hneg, not_lt.mpr hq]
  · intro c hc
    rcases List.mem_append.mp hc with h | h
    · obtain ⟨d, rfl⟩ := dec_digits_digit _ _ c h
      exact (digit_char_facts d).2.2.2.1
    · simp only [List.mem_cons, List.mem_singleton, List.not_mem_nil, or_false] at h
      rcases h with rfl | rfl | rfl | rfl | rfl | rfl <;> exact (digit_char_facts _).2.2.2.1
  · intro rest hrest
    by_cases hw : micro_round q / 1000000 = 0
    · rw [hw] at hrest
      have : nat_text 0 = ['0'] := by decide
      rw [this] at hrest
      cases hrest
      rfl
    · obtain ⟨c, r, hc, hne⟩ := dec_digits_head (micro_round q / 1000000 + 1)
        (micro_round q / 1000000) (by omega) (lt_ten_pow_succ _)
      unfold nat_text at hrest
      rw [hc] at hrest
      cases hrest
      exact (hne rfl).elim

theorem count_comma_tokens (l : List (List Char)) (x : List Char)
    (hl : ∀ t ∈ l, ',' ∉ t) (hx : ',' ∉ x) :
    ((l.map fun t => t ++ [',']).flatten ++ x).count ',' = l.length := by
  induction l with
  | nil => simpa [List.count_eq_zero] using hx
  | cons t l ih =>
    have ht : t.count ',' = 0 := List.count_eq_zero.mpr (hl t (List.mem_cons_self _ _))
    have := ih (fun u hu => hl u (List.mem_cons_of_mem _ hu))
    rw [List.map_cons, List.flatten_cons, List.append_assoc, List.count_append,
      List.count_append, this, ht]
    simp
    omega

theorem fmt_f_shape (d : ℚ) :
    ∃ whole frac, fmt_f d = whole ++ '.' :: frac ∧ frac.length = 6 :=
  ⟨(if d.num < 0 then ['-'] else []) ++ nat_text (micro_round d / 1000000),
    [digit_char (micro_round d / 100000), digit_char (micro_round d / 10000),
     digit_char (micro_round d / 1000), digit_char (micro_round d / 100),
     digit_char (micro_round d / 10), digit_char (micro_round d)],
    by simp [fmt_f], rfl⟩

theorem token_two_and_a_half : token (5 / 2) true = "2.500000:1".toList := by
  have h1 : ((5 : ℚ) / 2).num = 5 := by norm_num
  have h2 : ((5 : ℚ) / 2).den = 2 := by norm_num
  unfold token fmt_f micro_round
  rw [h1, h2]
  decide

theorem fmt_f_two_thirds : fmt_f (2 / 3) = "0.666667".toList := by
  have h1 : ((2 : ℚ) / 3).num = 2 := by norm_num
  have h2 : ((2 : ℚ) / 3).den = 3 := by norm_num
  unfold fmt_f micro_round
  rw [h1, h2]
  decide

theorem read_decimal_two_and_a_half : read_decimal "2.500000".toList = 5 / 2 := by
  have h1 : read_nat ['2'] = 2 := by decide
  have h2 : read_nat ['5', '0', '0', '0', '0', '0'] = 500000 := by decide
  have h : read_decimal "2.500000".toList =
      (read_nat ['2'] : ℚ) + (read_nat ['5', '0', '0', '0', '0', '0'] : ℚ) / 10 ^ 6 := rfl
  rw [h, h1, h2]
  norm_num

theorem read_decimal_minus_one : read_decimal "-1.000000".toList = -1 := by
  have h1 : read_nat ['1'] = 1 := by decide
  have h2 : read_nat ['0', '0', '0', '0', '0', '0'] = 0 := by decide
  have h : read_decimal "-1.000000".toList =
      -((read_nat ['1'] : ℚ) + (read_nat ['0', '0', '0', '0', '0', '0'] : ℚ) / 10 ^ 6) := rfl
  rw [h, h1, h2]
  norm_num

/-- C4: for every non-empty sequence of `N` trials (the buffers at indices
`0 .. N - 1`, `N` a `size_t`), the reporting step writes the tokens of the
trials in round order with one `,` between consecutive tokens and none after
the last: the output has exactly `N - 1` commas and splitting it on `,` gives
back the `N` tokens in order.  A token is the duration under `%f`, a `:`, then
`1` for success and `0` for failure.  The text of `%f` is an optional `-`
(present exactly for a negative value), the whole part as a decimal numeral
without leading zeros, a point and exactly six digits; read back as a decimal
numeral it is within half a unit of the sixth decimal place of the duration,
and it is the duration itself whenever that has at most six decimal places,
as every duration computed by lines 303-304 and the sentinel `-1` have.  So
2.5 ms succeeded renders as `2.500000:1`, two thirds as `0.666667`, three
failed trials as `-1.000000:0,-1.000000:0,-1.000000:0` and one failed trial as
`-1.000000:0`. -/
theorem C4_report_format (bufs : Buffers) (n : Nat) (h1 : 1 ≤ n) (h2 : n < SIZE) :
    stdout_of (report bufs n) = List.intercalate [','] ((List.range n).map fun i =>
      token (bufs.handshake_times_ms i) (bufs.conn_success i)) ∧
    (stdout_of (report bufs n)).count ',' = n - 1 ∧
    List.splitOn ',' (stdout_of (report bufs n)) = ((List.range n).map fun i =>
      token (bufs.handshake_times_ms i) (bufs.conn_success i)) ∧
    (∀ d b, token d b = fmt_f d ++ [':'] ++ (if b = true then ['1'] else ['0'])) ∧
    (∀ d, ∃ whole frac, fmt_f d = whole ++ '.' :: frac ∧ frac.length = 6) ∧
    stdout_of (report { handshake_times_ms := fun _ => -1, conn_success := fun _ => false } 3)
      = "-1.000000:0,-1.000000:0,-1.000000:0".toList ∧
    stdout_of (report { handshake_times_ms := fun _ => -1, conn_success := fun _ => false } 1)
      = "-1.000000:0".toList ∧
    (∀ d : ℚ, ∃ whole frac,
      fmt_f d = (if d < 0 then ['-'] else []) ++ whole ++ '.' :: frac ∧
      whole ≠ [] ∧ frac.length = 6 ∧ (∀ c ∈ whole ++ frac, c.isDigit = true) ∧
      (∀ rest, whole = '0' :: rest → rest = [])) ∧
    (∀ d : ℚ, |read_decimal (fmt_f d) - d| ≤ 1 / 2000000) ∧
    (∀ (d : ℚ) (k : Int), d = (k : ℚ) / 1000000 → read_decimal (fmt_f d) = d) ∧
    (∀ t0 t1 : Timespec, read_decimal (fmt_f (duration_ms t0 t1)) = duration_ms t0 t1) ∧
    read_decimal (fmt_f (-1)) = -1 ∧
    read_decimal "2.500000".toList = 5 / 2 ∧
    read_decimal "-1.000000".toList = -1 ∧
    token (5 / 2) true = "2.500000:1".toList ∧
    fmt_f (2 / 3) = "0.666667".toList := by
  have hr := stdout_of_report bufs n h1 h2
  refine ⟨hr, ?_, ?_, fun d b => by cases b <;> rfl, fmt_f_shape, by decide, by decide,
    fmt_f_digits, read_decimal_fmt_f_near,
    fun d k hk => read_decimal_fmt_f_exact d k hk,
    fun t0 t1 => read_decimal_fmt_f_exact _ _ (duration_ms_micro t0 t1),
    read_decimal_fmt_f_exact (-1) (-1000000) (by norm_num),
    read_decimal_two_and_a_half, read_decimal_minus_one, token_two_and_a_half,
    fmt_f_two_thirds⟩
  · obtain ⟨k, rfl⟩ : ∃ k, n = k + 1 := ⟨n - 1, by omega⟩
    rw [hr, List.range_succ, List.map_append, List.map_singleton, ← intercalate_snoc,
      count_comma_tokens]
    · simp
    · intro t ht
      obtain ⟨i, _, rfl⟩ := List.mem_map.mp ht
      exact token_no_comma _ _
    · exact token_no_comma _ _
  · rw [hr]
    apply List.splitOn_intercalate
    · intro t ht
      obtain ⟨i, _, rfl⟩ := List.mem_map.mp ht
      exact token_no_comma _ _
    · intro hnil
      have := congrArg List.length hnil
      simp at this
      omega

theorem token_minus_one : token (-1) false = "-1.000000:0".toList := by decide

/-- Two trials, the first a success of 2.5 ms and the second a failure: the
hypotheses of C4 hold, the output has one comma and it is
`2.500000:1,-1.000000:0`. -/
theorem C4_report_format_witness :
    1 ≤ 2 ∧ 2 < SIZE ∧
    (stdout_of (report two_trials 2)).count ',' = 2 - 1 ∧
    stdout_of (report two_trials 2) = "2.500000:1,-1.000000:0".toList := by
  have h := C4_report_format two_trials 2 (by decide) (by decide)
  refine ⟨by decide, by decide, h.2.1, ?_⟩
  have hl : ((List.range 2).map fun i =>
      token (two_trials.handshake_times_ms i) (two_trials.conn_success i)) =
      [token (5 / 2) true, token (-1) false] := rfl
  rw [h.1, hl, token_two_and_a_half, token_minus_one]
  decide

/-- In the run of three rounds of which the second is refused, the trial of
the first round is recorded as a success with the duration of lines 303-304,
which is not negative. -/
theorem C3_trial_values_witness :
    Event.store_success 0 true ∈ (main_body three_rounds mixed_env).trace ∧
    Event.store_time 0 (duration_ms good_round.start good_round.finish) ∈
      (main_body three_rounds mixed_env).trace ∧
    valid_interval good_round.start good_round.finish ∧
    0 ≤ duration_ms good_round.start good_round.finish := by
  have hb : Event.store_success 0 true ∈ (main_body three_rounds mixed_env).trace := by
    decide
  have hd : Event.store_time 0 (duration_ms good_round.start good_round.finish) ∈
      (main_body three_rounds mixed_env).trace := by
    simp [main_body, configure, three_rounds, default_arguments, mixed_env, good_env,
      loadOQSProvider, bench_loop, while_loop, loop_body, do_tls_handshake, good_round,
      refused_round]
  exact ⟨hb, hd, by decide,
    ((C3_trial_values three_rounds mixed_env 0 true _ hb hd).2.2 rfl).2.2 (by decide)⟩

theorem bench_loop_abort (arguments : Arguments) (env : Env) (k : Nat)
    (hk : k < arguments.rounds) (hfail : close_fails env.so_linger_defined (env.round k))
    (hfirst : ∀ j, j < k → ¬ close_fails env.so_linger_defined (env.round j)) :
    (bench_loop arguments env).ossl_error = some (-1) ∧
    (bench_loop arguments env).measurements = k ∧
    (bench_loop arguments env).events.count (Event.call Fn.BIO_new) = k + 1 := by
  obtain ⟨h1, h2, h3⟩ := while_loop_abort env.so_linger_defined env.round arguments.rounds k
    hk hfail arguments.rounds 0 (Nat.sub_le _ _) (heap env) (Nat.zero_le _)
    (fun j _ hj => hfirst j hj)
  exact ⟨h1, h2, by simpa using h3⟩

theorem at_labels_not_of_rounds :
    ∀ e ∈ at_ossl_error ++ at_end, e.of_rounds = false := by decide

/-- When a configuration step fails, no event of the run belongs to a round or
to the reporting step, and the counter stays at 0. -/
theorem main_body_config_failed (arguments : Arguments) (env : Env)
    (h : ¬ steps_ok arguments env) :
    (∀ e ∈ (main_body arguments env).trace, e.of_rounds = false) ∧
    (main_body arguments env).measurements = 0 := by
  have hne := configure_events_not_of_rounds arguments env
  cases hc : configure arguments env with
  | returned ret events =>
    rw [hc] at hne
    rw [main_body_returned arguments env ret events hc]
    exact ⟨hne, rfl⟩
  | ossl_error ret events =>
    rw [hc] at hne
    rw [main_body_config_error arguments env ret events hc]
    refine ⟨?_, rfl⟩
    intro e he
    rw [List.append_assoc] at he
    rcases List.mem_append.mp he with he | he
    · exact hne e he
    · exact at_labels_not_of_rounds e he
  | ready events => exact (configure_not_ready arguments env h events hc).elim

/-- The two ways `main` reaches `ossl_error` leave nothing reported.  When a
configuration step fails, no handshake is started and no trial is written (no
event of a round occurs at all).  When the test of line 308 fires in round `k`
(`BIO_closesocket` returned `-1`; the first such round), the executor has been
called `k + 1` times and the counter stays at `k`.  In both cases the trace has
no `printf` of source lines 321 and 323 and no read of a buffer. -/
theorem ossl_error_paths_report_nothing (arguments : Arguments) (env : Env)
    (hfatal : ¬ steps_ok arguments env ∨
      ∃ k, k < arguments.rounds ∧ close_fails env.so_linger_defined (env.round k)) :
    reported_output (main_body arguments env).trace = [] ∧
    (∀ e ∈ (main_body arguments env).trace,
      (∀ i, e ≠ Event.load_time i) ∧ (∀ i, e ≠ Event.load_success i) ∧
      (∀ text, e ≠ Event.printf 321 text ∧ e ≠ Event.printf 323 text)) ∧
    (¬ steps_ok arguments env →
      (main_body arguments env).trace.count (Event.call Fn.BIO_new) = 0 ∧
      (main_body arguments env).measurements = 0 ∧
      ∀ e ∈ (main_body arguments env).trace, e.of_rounds = false) ∧
    (∀ k, steps_ok arguments env → k < arguments.rounds →
      close_fails env.so_linger_defined (env.round k) →
      (∀ j, j < k → ¬ close_fails env.so_linger_defined (env.round j)) →
      (main_body arguments env).trace.count (Event.call Fn.BIO_new) = k + 1 ∧
      (main_body arguments env).measurements = k ∧
      (main_body arguments env).ret = -1) := by
  have hlast : ∀ k, steps_ok arguments env → k < arguments.rounds →
      close_fails env.so_linger_defined (env.round k) →
      (∀ j, j < k → ¬ close_fails env.so_linger_defined (env.round j)) →
      (main_body arguments env).trace.count (Event.call Fn.BIO_new) = k + 1 ∧
      (main_body arguments env).measurements = k ∧
      (main_body arguments env).ret = -1 := by
    intro k hcfg hk hfail hfirst
    obtain ⟨a1, a2, a3⟩ := bench_loop_abort arguments env k hk hfail hfirst
    have hc := configure_ready arguments env hcfg
    have hne := configure_events_not_of_rounds arguments env
    rw [hc] at hne
    simp only [Config.events] at hne
    rw [main_body_loop_error arguments env (-1) _ hc a1]
    refine ⟨?_, a2, rfl⟩
    rw [List.append_assoc, List.count_append, List.count_append, a3,
      count_eq_zero_of_not_of_rounds _ hne,
      count_eq_zero_of_not_of_rounds _ at_labels_not_of_rounds]
    omega
  have hfailed : ¬ steps_ok arguments env →
      (main_body arguments env).trace.count (Event.call Fn.BIO_new) = 0 ∧
      (main_body arguments env).measurements = 0 ∧
      ∀ e ∈ (main_body arguments env).trace, e.of_rounds = false := by
    intro h
    obtain ⟨f1, f2⟩ := main_body_config_failed arguments env h
    exact ⟨count_eq_zero_of_not_of_rounds _ f1, f2, f1⟩
  have hnone : ∀ e ∈ (main_body arguments env).trace,
      (∀ i, e ≠ Event.load_time i) ∧ (∀ i, e ≠ Event.load_success i) ∧
      (∀ text, e ≠ Event.printf 321 text ∧ e ≠ Event.printf 323 text) := by
    have hof : ∀ e : Event, e.of_rounds = false →
        (∀ i, e ≠ Event.load_time i) ∧ (∀ i, e ≠ Event.load_success i) ∧
        (∀ text, e ≠ Event.printf 321 text ∧ e ≠ Event.printf 323 text) := by
      intro e he
      refine ⟨?_, ?_, not_of_rounds_no_token e he⟩ <;> rintro i rfl <;>
        simp [Event.of_rounds] at he
    by_cases hcfg : steps_ok arguments env
    · rcases hfatal with h | ⟨k0, hk0, hf0⟩
      · exact (h hcfg).elim
      · have hex : ∃ k, k < arguments.rounds ∧
            close_fails env.so_linger_defined (env.round k) := ⟨k0, hk0, hf0⟩
        obtain ⟨a1, _, _⟩ := bench_loop_abort arguments env (Nat.find hex)
          (Nat.find_spec hex).1 (Nat.find_spec hex).2
          (fun j hj hfj => Nat.find_min hex hj
            ⟨Nat.lt_trans hj (Nat.find_spec hex).1, hfj⟩)
        have hc := configure_ready arguments env hcfg
        have hne := configure_events_not_of_rounds arguments env
        rw [hc] at hne
        simp only [Config.events] at hne
        obtain ⟨_, le2, _⟩ := bench_loop_events arguments env
        rw [main_body_loop_error arguments env (-1) _ hc a1]
        intro e he
        rw [List.append_assoc] at he
        rcases List.mem_append.mp he with he | he
        · rcases List.mem_append.mp he with he | he
          · exact hof e (hne e he)
          · exact ⟨(le2 e he).1, (le2 e he).2.1, fun text =>
              ⟨(le2 e he).2.2 _ _, (le2 e he).2.2 _ _⟩⟩
        · exact hof e (at_labels_not_of_rounds e he)
    · exact fun e he => hof e ((hfailed hcfg).2.2 e he)
  exact ⟨reported_output_nil_of _ (fun e he => (hnone e he).2.2), hnone, hfailed, hlast⟩

/-- What the reporting step writes in a run that completes: the tokens of the
outcomes of the rounds, in order, joined by `,`. -/
theorem reported_output_complete (arguments : Arguments) (env : Env)
    (hN : 1 ≤ arguments.rounds) (hsize : arguments.rounds < SIZE)
    (hcfg : steps_ok arguments env)
    (hclose : ∀ i, i < arguments.rounds → ¬ close_fails env.so_linger_defined (env.round i)) :
    reported_output (main_body arguments env).trace =
      List.intercalate [','] ((List.range arguments.rounds).map fun i =>
        token ((bench_loop arguments env).bufs.handshake_times_ms i)
          ((bench_loop arguments env).bufs.conn_success i)) := by
  obtain ⟨l1, l2, _, _⟩ := bench_loop_complete arguments env hclose
  have hc := configure_ready arguments env hcfg
  have hne := configure_events_not_of_rounds arguments env
  rw [hc] at hne
  simp only [Config.events] at hne
  obtain ⟨_, le2, _⟩ := bench_loop_events arguments env
  rw [main_body_reported arguments env _ hc l1]
  simp only [reported_output_append]
  rw [reported_output_nil_of _ (fun e he => not_of_rounds_no_token e (hne e he)),
    reported_output_nil_of _ (fun e he text => ⟨(le2 e he).2.2 _ _, (le2 e he).2.2 _ _⟩),
    reported_output_nil_of at_end (by simp [at_end]), l2, reported_output_report,
    stdout_of_report _ _ hN hsize]
  simp only [List.nil_append, List.append_nil]

/-- C5, the code at the failing input: three rounds of which the second
succeeds and then cannot close its socket, `BIO_closesocket` reporting the
failure as 0.  Line 308 tests for `-1`, so the test does not fire: the session
is freed, the third round runs (three calls of the executor, `measurements =
3`), the reporting step writes all three tokens and `main` returns 0. -/
theorem C5_run_continues_after_failed_close :
    steps_ok three_rounds close_error_env ∧
    (do_tls_handshake close_error_env.so_linger_defined (close_error_env.round 1)).1 = true ∧
    (close_error_env.round 1).close_ret = 0 ∧
    (main_body three_rounds close_error_env).trace.count (Event.call Fn.BIO_new) = 3 ∧
    (main_body three_rounds close_error_env).trace.count (Event.call Fn.BIO_closesocket) = 1 ∧
    (main_body three_rounds close_error_env).measurements = 3 ∧
    (main_body three_rounds close_error_env).ret = 0 ∧
    reported_output (main_body three_rounds close_error_env).trace =
      "-1.000000:0,2.500000:1,-1.000000:0".toList := by
  refine ⟨by decide, by decide, by decide, by decide, by decide, by decide, by decide, ?_⟩
  obtain ⟨_, _, _, l4⟩ := bench_loop_complete three_rounds close_error_env (by decide)
  have hd : duration_ms good_round.start good_round.finish = 5 / 2 := by
    norm_num [duration_ms, good_round, MS_IN_S, NS_IN_MS]
  have hl : ((List.range three_rounds.rounds).map fun i =>
      token ((bench_loop three_rounds close_error_env).bufs.handshake_times_ms i)
        ((bench_loop three_rounds close_error_env).bufs.conn_success i)) =
      [token (-1) false, token (5 / 2) true, token (-1) false] := by
    have e0 := l4 0 (by decide)
    have e1 := l4 1 (by decide)
    have e2 := l4 2 (by decide)
    have hr : List.range three_rounds.rounds = [0, 1, 2] := by decide
    rw [hr]
    simp only [List.map_cons, List.map_nil, e0.1, e0.2, e1.1, e1.2, e2.1, e2.2]
    rw [← hd]
    rfl
  rw [reported_output_complete three_rounds close_error_env (by decide) (by decide)
    (by decide) (by decide), hl, token_two_and_a_half, token_minus_one]
  decide

/-- Three rounds, the second refused: the hypotheses of C2 hold and the run
makes three calls of the executor, ends the loop at `measurements = 3` and
reports three tokens. -/
theorem C2_rounds_trials_tokens_witness :
    1 ≤ three_rounds.rounds ∧ three_rounds.rounds < SIZE ∧ steps_ok three_rounds mixed_env ∧
    (∀ i, i < three_rounds.rounds →
      ¬ close_fails mixed_env.so_linger_defined (mixed_env.round i)) ∧
    (main_body three_rounds mixed_env).trace.count (Event.call Fn.BIO_new) = 3 ∧
    (main_body three_rounds mixed_env).measurements = 3 ∧
    (List.splitOn ',' (reported_output (main_body three_rounds mixed_env).trace)).length = 3 :=
  have h := C2_rounds_trials_tokens three_rounds mixed_env (by decide) (by decide) (by decide)
    (by decide)
  ⟨by decide, by decide, by decide, by decide, h.1, h.2.1, h.2.2.2.1⟩

/-- C6 (as amended): for every run that completes all `N ≥ 1` rounds, standard
output holds, in this order and nothing else: the line `OpenSSL Version: `
followed by the library's version text, the line `OQS provider loaded
successfully.`, and then, without a newline after it, the tokens
`d1:s1,d2:s2,...,dN:sN` of the `N` trials. -/
theorem C6_stdout_content (arguments : Arguments) (env : Env)
    (hN : 1 ≤ arguments.rounds) (hsize : arguments.rounds < SIZE)
    (hcfg : steps_ok arguments env)
    (hclose : ∀ i, i < arguments.rounds → ¬ close_fails env.so_linger_defined (env.round i)) :
    stdout_of (main_body arguments env).trace =
      "OpenSSL Version: ".toList ++ env.version ++ "\n".toList ++
      "OQS provider loaded successfully.\n".toList ++
      List.intercalate [','] ((List.range arguments.rounds).map fun i =>
        token ((main_body arguments env).bufs.handshake_times_ms i)
          ((main_body arguments env).bufs.conn_success i)) := by
  obtain ⟨l1, l2, _, _⟩ := bench_loop_complete arguments env hclose
  obtain ⟨le1, _⟩ := bench_loop_events arguments env
  have hc := configure_ready arguments env hcfg
  rw [main_body_reported arguments env _ hc l1]
  simp only [stdout_of_append, le1, l2, stdout_of_report _ _ hN hsize]
  simp [stdout_of, at_end]

/-- One round against a target that refuses the connection: the hypotheses of
the amended C6 hold and standard output is the two lines followed by the one
token. -/
theorem C6_stdout_content_witness :
    1 ≤ default_arguments.rounds ∧ default_arguments.rounds < SIZE ∧
    steps_ok default_arguments refused_env ∧
    (∀ i, i < default_arguments.rounds →
      ¬ close_fails refused_env.so_linger_defined (refused_env.round i)) ∧
    stdout_of (main_body default_arguments refused_env).trace =
      "OpenSSL Version: ".toList ++ refused_env.version ++ "\n".toList ++
      "OQS provider loaded successfully.\n".toList ++
      List.intercalate [','] ((List.range default_arguments.rounds).map fun i =>
        token ((main_body default_arguments refused_env).bufs.handshake_times_ms i)
          ((main_body default_arguments refused_env).bufs.conn_success i)) :=
  ⟨by decide, by decide, by decide, by decide,
    C6_stdout_content default_arguments refused_env (by decide) (by decide) (by decide)
      (by decide)⟩

/-- C6 (as stated) fails: a run of one round with no option on the command
line, against a target that refuses the connection, completes (`main` returns
0 with `measurements = 1`), and its standard output is not the line
`-1.000000:0` alone: two other lines come before it. -/
theorem C6_stdout_has_two_more_lines :
    (main [] refused_env).ret = 0 ∧ (main [] refused_env).measurements = 1 ∧
    stdout_of (main [] refused_env).trace =
      "OpenSSL Version: OpenSSL 3.2.0\nOQS provider loaded successfully.\n-1.000000:0".toList ∧
    stdout_of (main [] refused_env).trace ≠ List.intercalate [','] [token (-1) false] := by
  decide

/-! ## The provider step -/

/-- When only the provider step fails, the configuration phase ends at
`ossl_error` with exactly these events. -/
theorem configure_provider_failed (arguments : Arguments) (env : Env)
    (h : steps_before_provider_ok env) (hq : env.conf_load_ret arguments.config_file ≤ 0) :
    configure arguments env = Config.ossl_error env.verify_locations_ret
      [Event.call Fn.TLS_client_method, Event.malloc (arguments.rounds * 8 % SIZE),
       Event.malloc (arguments.rounds * 1 % SIZE), Event.call Fn.SSL_CTX_new,
       Event.call Fn.OpenSSL_version,
       Event.printf 203 ("OpenSSL Version: ".toList ++ env.version ++ "\n".toList),
       Event.call Fn.SSL_CTX_set_mode, Event.call Fn.SSL_CTX_set_quiet_shutdown,
       Event.call Fn.SSL_CTX_set_min_proto_version,
       Event.call Fn.SSL_CTX_set_max_proto_version, Event.call Fn.SSL_CTX_set_options,
       Event.call Fn.SSL_CTX_set_ciphersuites, Event.call Fn.SSL_CTX_set1_groups_list,
       Event.call Fn.SSL_CTX_load_verify_locations, Event.call Fn.fopen,
       Event.call Fn.PEM_read_X509, Event.call Fn.fclose,
       Event.call Fn.SSL_CTX_add_extra_chain_cert, Event.call Fn.SSL_CTX_use_certificate_file,
       Event.call Fn.SSL_CTX_use_PrivateKey_file, Event.call Fn.SSL_CTX_check_private_key,
       Event.call Fn.SSL_CTX_set_verify, Event.CONF_modules_load_file arguments.config_file,
       Event.fprintf_stderr ("Error loading OQS provider from ".toList ++
         arguments.config_file ++ "\n".toList),
       Event.fprintf_stderr "Failed to load OQS provider.\n".toList] := by
  obtain ⟨h1, h2, h3, h4, h5, h6, h7, h8, h9, h10, h11, h12, h13, h14⟩ := h
  simp [configure, loadOQSProvider, h1, h2, h3, h4, h5, h6, h7, h9, h10, h14,
    not_le.mpr h8, not_le.mpr h11, not_le.mpr h12, not_le.mpr h13, hq]

/-- C7 (as amended): `loadOQSProvider` calls the external loader exactly when
the path it is given is not `NULL`, and returns non-zero exactly when the path
is not `NULL` and the loader reports failure (a result `≤ 0`).  In `main`, once
the earlier steps have succeeded, the step is fatal exactly when
`loadOQSProvider` returns non-zero; when it returns 0, `main` writes the line
`OQS provider loaded successfully.` to standard output and configuration
proceeds to the loop. -/
theorem C7_provider_step (arguments : Arguments) (env : Env) (path : Option (List Char))
    (h : steps_before_provider_ok env) :
    (∀ p, Event.CONF_modules_load_file p ∈ (loadOQSProvider env.conf_load_ret path).2 ↔
      path = some p) ∧
    ((loadOQSProvider env.conf_load_ret path).1 ≠ 0 ↔
      ∃ p, path = some p ∧ env.conf_load_ret p ≤ 0) ∧
    ((loadOQSProvider env.conf_load_ret (some arguments.config_file)).1 ≠ 0 →
      ∃ events, configure arguments env = Config.ossl_error env.verify_locations_ret events ∧
        Event.fprintf_stderr "Failed to load OQS provider.\n".toList ∈ events) ∧
    ((loadOQSProvider env.conf_load_ret (some arguments.config_file)).1 = 0 →
      ∃ events, configure arguments env = Config.ready events ∧
        Event.printf 285 "OQS provider loaded successfully.\n".toList ∈ events) := by
  obtain ⟨h1, h2, h3, h4, h5, h6, h7, h8, h9, h10, h11, h12, h13, h14⟩ := h
  refine ⟨?_, ?_, ?_, ?_⟩
  · intro p
    cases path with
    | none => simp [loadOQSProvider]
    | some q =>
      by_cases hq : env.conf_load_ret q ≤ 0 <;> simp [loadOQSProvider, hq, eq_comm]
  · cases path with
    | none => simp [loadOQSProvider]
    | some q =>
      by_cases hq : env.conf_load_ret q ≤ 0 <;> simp [loadOQSProvider, hq]
  · intro hp
    by_cases hq : env.conf_load_ret arguments.config_file ≤ 0
    · rw [configure_provider_failed arguments env
        ⟨h1, h2, h3, h4, h5, h6, h7, h8, h9, h10, h11, h12, h13, h14⟩ hq]
      exact ⟨_, rfl, by simp⟩
    · simp [loadOQSProvider, hq] at hp
  · intro hp
    by_cases hq : env.conf_load_ret arguments.config_file ≤ 0
    · simp [loadOQSProvider, hq] at hp
    · rw [configure_ready arguments env
        ⟨h1, h2, h3, h4, h5, h6, h7, h8, h9, h10, h11, h12, h13, h14, not_le.mp hq⟩]
      exact ⟨_, rfl, by simp⟩

/-- A run with `--config` not given and a loader that reports failure: the
earlier steps succeed, `loadOQSProvider` returns non-zero for the path `main`
hands it, and the configuration phase ends at `ossl_error`. -/
theorem C7_provider_step_witness :
    steps_before_provider_ok provider_fails_env ∧
    (loadOQSProvider provider_fails_env.conf_load_ret
      (some default_arguments.config_file)).1 ≠ 0 ∧
    ∃ events, configure default_arguments provider_fails_env =
        Config.ossl_error provider_fails_env.verify_locations_ret events ∧
      Event.fprintf_stderr "Failed to load OQS provider.\n".toList ∈ events :=
  ⟨by decide, by decide,
    (C7_provider_step default_arguments provider_fails_env none (by decide)).2.2.1
      (by decide)⟩

/-- C7 (as stated) fails: with no `--config` on the command line the path
keeps its default, the empty string, which is not `NULL`; in a run where the
loader would succeed it is called with that path and `main` writes a line to
standard output, and in a run where the loader fails the run is fatal (no
handshake is started and `main` returns non-zero). -/
theorem C7_loader_called_without_config_option :
    (argp_parse good_env.atoi [] default_arguments).config_file = [] ∧
    Event.CONF_modules_load_file [] ∈ (main [] good_env).trace ∧
    Event.printf 285 "OQS provider loaded successfully.\n".toList ∈ (main [] good_env).trace ∧
    Event.CONF_modules_load_file [] ∈ (main [] provider_fails_env).trace ∧
    (main [] provider_fails_env).ret ≠ 0 ∧
    (main [] provider_fails_env).trace.count (Event.call Fn.BIO_new) = 0 := by
  decide

/-! ## Order of events in a successful round -/

/-- The events of a call of the executor that returns a session. -/
theorem do_tls_handshake_success (so_linger : Bool) (r : RoundEnv)
    (hs : (do_tls_handshake so_linger r).1 = true) :
    (do_tls_handshake so_linger r).2 =
      [Event.call Fn.BIO_new, Event.call Fn.BIO_set_conn_hostname,
       Event.call Fn.BIO_set_conn_mode, Event.call Fn.SSL_new, Event.call Fn.SSL_set_bio,
       Event.call Fn.SSL_connect] ++
      (if so_linger = true then
        [Event.call Fn.SSL_get_fd] ++
          (if 0 ≤ r.fd then [Event.call Fn.setsockopt_SO_LINGER] else [])
       else []) := by
  rw [do_tls_handshake_fst] at hs
  simp only [Bool.and_eq_true, decide_eq_true_eq] at hs
  obtain ⟨⟨hb, hn⟩, hc⟩ := hs
  simp [do_tls_handshake, hb, hn, not_le.mpr hc]

/-- C8 (as amended): in every successful round the trace of the pass splits at
the one recording of `t1` (`clock_gettime` into `finish`); marking the TLS
shutdown flags, closing the socket and freeing the session occur only after
it (the free only if the close did not fail); the `SO_LINGER` option is never
set after it: it is set by the executor itself, before `t1`, exactly when the
block under `#if` is compiled in and the descriptor is not negative. -/
theorem C8_teardown_order (so_linger : Bool) (r : RoundEnv) (m : Nat) (bufs : Buffers)
    (hs : (do_tls_handshake so_linger r).1 = true) :
    ∃ pre post, (loop_body so_linger r m bufs).events =
        pre ++ Event.clock_gettime_finish :: post ∧
      Event.clock_gettime_finish ∉ pre ∧ Event.clock_gettime_finish ∉ post ∧
      Event.call Fn.SSL_set_shutdown ∉ pre ∧ Event.call Fn.BIO_closesocket ∉ pre ∧
      Event.call Fn.SSL_free ∉ pre ∧
      Event.call Fn.SSL_set_shutdown ∈ post ∧ Event.call Fn.BIO_closesocket ∈ post ∧
      (r.close_ret ≠ -1 → Event.call Fn.SSL_free ∈ post) ∧
      Event.call Fn.setsockopt_SO_LINGER ∉ post ∧
      (Event.call Fn.setsockopt_SO_LINGER ∈ pre ↔ so_linger = true ∧ 0 ≤ r.fd) := by
  have he := do_tls_handshake_success so_linger r hs
  by_cases hc : r.close_ret = -1
  · refine ⟨Event.clock_gettime_start :: (do_tls_handshake so_linger r).2,
      [Event.store_success m true, Event.store_time m (duration_ms r.start r.finish),
       Event.call Fn.SSL_set_shutdown, Event.call Fn.SSL_get_fd,
       Event.call Fn.BIO_closesocket], ?_, ?_⟩
    · simp [loop_body, hs, hc]
    · rw [he]
      by_cases hl : so_linger = true <;> by_cases hf : 0 ≤ r.fd <;> simp [hl, hf, hc]
  · refine ⟨Event.clock_gettime_start :: (do_tls_handshake so_linger r).2,
      [Event.store_success m true, Event.store_time m (duration_ms r.start r.finish),
       Event.call Fn.SSL_set_shutdown, Event.call Fn.SSL_get_fd,
       Event.call Fn.BIO_closesocket, Event.call Fn.SSL_free], ?_, ?_⟩
    · simp [loop_body, hs, hc]
    · rw [he]
      by_cases hl : so_linger = true <;> by_cases hf : 0 ≤ r.fd <;> simp [hl, hf, hc]

/-- A successful round with the `#if` block compiled in: the hypothesis of the
amended C8 holds and the pass splits at the recording of `t1` with the close of
the socket after it. -/
theorem C8_teardown_order_witness :
    (do_tls_handshake true good_round).1 = true ∧
    ∃ pre post, (loop_body true good_round 0 (heap good_env)).events =
        pre ++ Event.clock_gettime_finish :: post ∧
      Event.call Fn.BIO_closesocket ∉ pre ∧ Event.call Fn.BIO_closesocket ∈ post :=
  ⟨by decide,
    match C8_teardown_order true good_round 0 (heap good_env) (by decide) with
    | ⟨pre, post, h1, _, _, _, h5, _, _, h8, _⟩ => ⟨pre, post, h1, h5, h8⟩⟩

/-- C8 (as stated) fails: in a successful round of a build with `SOL_SOCKET`
and `SO_LINGER` defined, the executor itself sets the socket not to linger
(after `SSL_get_fd`, two actions on the socket after the handshake), and this
teardown action is in the trace before `t1` is recorded. -/
theorem C8_linger_set_before_t1 :
    (do_tls_handshake true good_round).1 = true ∧
    (Event.call Fn.setsockopt_SO_LINGER).teardown = true ∧
    (loop_body true good_round 0 (heap good_env)).events =
      [Event.clock_gettime_start, Event.call Fn.BIO_new, Event.call Fn.BIO_set_conn_hostname,
       Event.call Fn.BIO_set_conn_mode, Event.call Fn.SSL_new, Event.call Fn.SSL_set_bio,
       Event.call Fn.SSL_connect, Event.call Fn.SSL_get_fd,
       Event.call Fn.setsockopt_SO_LINGER] ++
      Event.clock_gettime_finish ::
      [Event.store_success 0 true,
       Event.store_time 0 (duration_ms good_round.start good_round.finish),
       Event.call Fn.SSL_set_shutdown, Event.call Fn.SSL_get_fd,
       Event.call Fn.BIO_closesocket, Event.call Fn.SSL_free] :=
  ⟨by decide, rfl, rfl⟩

/-! ## Defects -/

/-- The exit code is 0 in exactly two kinds of run: every step succeeds and the
test of line 308 never fires (the run completes all rounds), or one of the first five
configuration steps (minimum pin, maximum pin, cipher suite, group, root
certificate) is the first to fail and the library reports its failure as 0. -/
theorem main_body_ret_eq_zero_iff (arguments : Arguments) (env : Env) :
    (main_body arguments env).ret = 0 ↔
      (steps_ok arguments env ∧
        ∀ i, i < arguments.rounds → ¬ close_fails env.so_linger_defined (env.round i)) ∨
      (env.malloc_times_ok = true ∧ env.malloc_success_ok = true ∧ env.ctx_ok = true ∧
        (env.min_proto_ret = 0 ∨
         (env.min_proto_ret = 1 ∧ env.max_proto_ret = 0) ∨
         (env.min_proto_ret = 1 ∧ env.max_proto_ret = 1 ∧ env.ciphersuites_ret = 0) ∨
         (env.min_proto_ret = 1 ∧ env.max_proto_ret = 1 ∧ env.ciphersuites_ret = 1 ∧
           env.groups_ret = 0) ∨
         (env.min_proto_ret = 1 ∧ env.max_proto_ret = 1 ∧ env.ciphersuites_ret = 1 ∧
           env.groups_ret = 1 ∧ env.verify_locations_ret = 0))) := by
  by_cases h1 : env.malloc_times_ok = true
  swap
  · simp [main_body, configure, loadOQSProvider, steps_ok, h1]
    try omega
  by_cases h2 : env.malloc_success_ok = true
  swap
  · simp [main_body, configure, loadOQSProvider, steps_ok, h1, h2]
    try omega
  by_cases h3 : env.ctx_ok = true
  swap
  · simp [main_body, configure, loadOQSProvider, steps_ok, h1, h2, h3]
    try omega
  by_cases h4 : env.min_proto_ret = 1
  swap
  · simp [main_body, configure, loadOQSProvider, steps_ok, h1, h2, h3, h4]
    try omega
  by_cases h5 : env.max_proto_ret = 1
  swap
  · simp [main_body, configure, loadOQSProvider, steps_ok, h1, h2, h3, h4, h5]
    try omega
  by_cases h6 : env.ciphersuites_ret = 1
  swap
  · simp [main_body, configure, loadOQSProvider, steps_ok, h1, h2, h3, h4, h5, h6]
    try omega
  by_cases h7 : env.groups_ret = 1
  swap
  · simp [main_body, configure, loadOQSProvider, steps_ok, h1, h2, h3, h4, h5, h6, h7]
    try omega
  by_cases h8 : 0 < env.verify_locations_ret
  swap
  · simp [main_body, configure, loadOQSProvider, steps_ok, h1, h2, h3, h4, h5, h6, h7, not_lt.mp
      h8]
    try omega
  by_cases h9 : env.fopen_ok = true
  swap
  · simp [main_body, configure, loadOQSProvider, steps_ok, h1, h2, h3, h4, h5, h6, h7,
      not_le.mpr h8, h9]
    try omega
  by_cases h10 : env.pem_ok = true
  swap
  · simp [main_body, configure, loadOQSProvider, steps_ok, h1, h2, h3, h4, h5, h6, h7,
      not_le.mpr h8, h9, h10]
    try omega
  by_cases h11 : 0 < env.add_chain_ret
  swap
  · simp [main_body, configure, loadOQSProvider, steps_ok, h1, h2, h3, h4, h5, h6, h7,
      not_le.mpr h8, h9, h10, not_lt.mp h11]
    try omega
  by_cases h12 : 0 < env.use_cert_ret
  swap
  · simp [main_body, configure, loadOQSProvider, steps_ok, h1, h2, h3, h4, h5, h6, h7,
      not_le.mpr h8, h9, h10, not_le.mpr h11, not_lt.mp h12]
    try omega
  by_cases h13 : 0 < env.use_key_ret
  swap
  · simp [main_body, configure, loadOQSProvider, steps_ok, h1, h2, h3, h4, h5, h6, h7,
      not_le.mpr h8, h9, h10, not_le.mpr h11, not_le.mpr h12, not_lt.mp h13]
    try omega
  by_cases h14 : env.check_key_ret ≠ 0
  swap
  · simp [main_body, configure, loadOQSProvider, steps_ok, h1, h2, h3, h4, h5, h6, h7,
      not_le.mpr h8, h9, h10, not_le.mpr h11, not_le.mpr h12, not_le.mpr h13, not_not.mp h14]
    try omega
  by_cases h15 : 0 < env.conf_load_ret arguments.config_file
  swap
  · simp [main_body, configure, loadOQSProvider, steps_ok, h1, h2, h3, h4, h5, h6, h7,
      not_le.mpr h8, h9, h10, not_le.mpr h11, not_le.mpr h12, not_le.mpr h13, h14, not_lt.mp
      h15]
    try omega
  have hcfg : steps_ok arguments env :=
    ⟨h1, h2, h3, h4, h5, h6, h7, h8, h9, h10, h11, h12, h13, h14, h15⟩
  have hc := configure_ready arguments env hcfg
  have hright : ¬ (env.min_proto_ret = 0 ∨
      (env.min_proto_ret = 1 ∧ env.max_proto_ret = 0) ∨
      (env.min_proto_ret = 1 ∧ env.max_proto_ret = 1 ∧ env.ciphersuites_ret = 0) ∨
      (env.min_proto_ret = 1 ∧ env.max_proto_ret = 1 ∧ env.ciphersuites_ret = 1 ∧
        env.groups_ret = 0) ∨
      (env.min_proto_ret = 1 ∧ env.max_proto_ret = 1 ∧ env.ciphersuites_ret = 1 ∧
        env.groups_ret = 1 ∧ env.verify_locations_ret = 0)) := by
    omega
  by_cases hex : ∃ k, k < arguments.rounds ∧
      close_fails env.so_linger_defined (env.round k)
  · obtain ⟨a1, _, _⟩ := bench_loop_abort arguments env (Nat.find hex)
      (Nat.find_spec hex).1 (Nat.find_spec hex).2
      (fun j hj hfj => Nat.find_min hex hj ⟨Nat.lt_trans hj (Nat.find_spec hex).1, hfj⟩)
    rw [main_body_loop_error arguments env (-1) _ hc a1]
    obtain ⟨k, hk, hf⟩ := hex
    constructor
    · intro h
      simp at h
    · rintro (⟨_, hno⟩ | ⟨_, _, _, hr⟩)
      · exact (hno k hk hf).elim
      · exact (hright hr).elim
  · have hno : ∀ i, i < arguments.rounds →
        ¬ close_fails env.so_linger_defined (env.round i) :=
      fun i hi hf => hex ⟨i, hi, hf⟩
    obtain ⟨l1, _⟩ := bench_loop_complete arguments env hno
    rw [main_body_reported arguments env _ hc l1]
    exact ⟨fun _ => Or.inl ⟨hcfg, hno⟩, fun _ => rfl⟩

/-- A pass of the loop releases neither the context nor a trial buffer. -/
theorem loop_body_no_release (so_linger : Bool) (r : RoundEnv) (m : Nat) (bufs : Buffers) :
    ∀ e ∈ (loop_body so_linger r m bufs).events,
      e ≠ Event.call Fn.SSL_CTX_free ∧ e ≠ Event.call Fn.free_handshake_times_ms ∧
      e ≠ Event.call Fn.free_conn_success := by
  have h1 : ∀ e ∈ (do_tls_handshake so_linger r).2,
      e ≠ Event.call Fn.SSL_CTX_free ∧ e ≠ Event.call Fn.free_handshake_times_ms ∧
      e ≠ Event.call Fn.free_conn_success := by
    unfold do_tls_handshake
    split_ifs <;> simp
  by_cases hs : (do_tls_handshake so_linger r).1 = true <;>
    by_cases hc : r.close_ret = -1 <;>
    · simp only [loop_body, hs, hc]
      intro e he
      simp at he
      rcases he with he | he | he
      · subst he; simp
      · exact h1 e he
      · rcases he with rfl | rfl | rfl | rfl | rfl | rfl | rfl <;> simp

theorem while_loop_no_release (so_linger : Bool) (round : Nat → RoundEnv) (rounds : Nat) :
    ∀ (fuel m : Nat) (h : rounds - m ≤ fuel) (bufs : Buffers),
      ∀ e ∈ (while_loop so_linger round rounds fuel m h bufs).events,
        e ≠ Event.call Fn.SSL_CTX_free ∧ e ≠ Event.call Fn.free_handshake_times_ms ∧
        e ≠ Event.call Fn.free_conn_success := by
  intro fuel
  induction fuel with
  | zero =>
    intro m h bufs
    simp [while_loop]
  | succ fuel ih =>
    intro m h bufs
    by_cases hlt : m < rounds
    · by_cases hc : close_fails so_linger (round m)
      · rw [while_loop_abort_now so_linger round rounds fuel m h bufs hlt hc]
        exact loop_body_no_release _ _ _ _
      · rw [while_loop_next so_linger round rounds fuel m h bufs hlt hc]
        intro e he
        rcases List.mem_append.mp he with he | he
        · exact loop_body_no_release _ _ _ _ e he
        · exact ih _ _ _ e he
    · rw [while_loop_exit so_linger round rounds (fuel + 1) m h bufs hlt]
      simp

/-- On every path of `main` each of the two trial buffers is released exactly
once.  On every path on which the context was created, `SSL_CTX_free` is
applied to it once, except when the first failing step is the load or the
append of the intermediate certificate, the load of the client certificate or
key, or the consistency check: then it is applied twice. -/
theorem release_counts (arguments : Arguments) (env : Env) :
    (main_body arguments env).trace.count (Event.call Fn.free_handshake_times_ms) = 1 ∧
    (main_body arguments env).trace.count (Event.call Fn.free_conn_success) = 1 ∧
    (env.malloc_times_ok = true → env.malloc_success_ok = true → env.ctx_ok = true →
      (main_body arguments env).trace.count (Event.call Fn.SSL_CTX_free) =
        if env.min_proto_ret = 1 ∧ env.max_proto_ret = 1 ∧ env.ciphersuites_ret = 1 ∧
            env.groups_ret = 1 ∧ 0 < env.verify_locations_ret ∧
            ¬ (env.fopen_ok = true ∧ env.pem_ok = true ∧ 0 < env.add_chain_ret ∧
              0 < env.use_cert_ret ∧ 0 < env.use_key_ret ∧ env.check_key_ret ≠ 0)
        then 2 else 1) := by
  obtain ⟨c, hc⟩ : ∃ c : Fn → List Event → Nat, c = fun f => List.count (Event.call f) :=
    ⟨_, rfl⟩
  have hc1 : ∀ f l, List.count (Event.call f) l = c f l := by
    intro f l
    rw [hc]
  by_cases h1 : env.malloc_times_ok = true
  swap
  · simp only [hc1]
    simp [main_body, configure, loadOQSProvider, at_ossl_error, at_end, h1]
    subst hc
    exact ⟨rfl, rfl⟩
  by_cases h2 : env.malloc_success_ok = true
  swap
  · simp only [hc1]
    simp [main_body, configure, loadOQSProvider, at_ossl_error, at_end, h1, h2]
    subst hc
    exact ⟨rfl, rfl⟩
  by_cases h3 : env.ctx_ok = true
  swap
  · simp only [hc1]
    simp [main_body, configure, loadOQSProvider, at_ossl_error, at_end, h1, h2, h3]
    subst hc
    exact ⟨rfl, rfl⟩
  by_cases h4 : env.min_proto_ret = 1
  swap
  · simp only [hc1]
    simp [main_body, configure, loadOQSProvider, at_ossl_error, at_end, h1, h2, h3, h4]
    subst hc
    exact ⟨rfl, rfl, rfl⟩
  by_cases h5 : env.max_proto_ret = 1
  swap
  · simp only [hc1]
    simp [main_body, configure, loadOQSProvider, at_ossl_error, at_end, h1, h2, h3, h4, h5]
    subst hc
    exact ⟨rfl, rfl, rfl⟩
  by_cases h6 : env.ciphersuites_ret = 1
  swap
  · simp only [hc1]
    simp [main_body, configure, loadOQSProvider, at_ossl_error, at_end, h1, h2, h3, h4, h5, h6]
    subst hc
    exact ⟨rfl, rfl, rfl⟩
  by_cases h7 : env.groups_ret = 1
  swap
  · simp only [hc1]
    simp [main_body, configure, loadOQSProvider, at_ossl_error, at_end, h1, h2, h3, h4, h5, h6,
      h7]
    subst hc
    exact ⟨rfl, rfl, rfl⟩
  by_cases h8 : 0 < env.verify_locations_ret
  swap
  · simp only [hc1]
    simp [main_body, configure, loadOQSProvider, at_ossl_error, at_end, h1, h2, h3, h4, h5, h6,
      h7, not_lt.mp h8, h8]
    subst hc
    exact ⟨rfl, rfl, rfl⟩
  by_cases h9 : env.fopen_ok = true
  swap
  · simp only [hc1]
    simp [main_body, configure, loadOQSProvider, at_ossl_error, at_end, h1, h2, h3, h4, h5, h6,
      h7, not_le.mpr h8, h8, h9]
    subst hc
    exact ⟨rfl, rfl, rfl⟩
  by_cases h10 : env.pem_ok = true
  swap
  · simp only [hc1]
    simp [main_body, configure, loadOQSProvider, at_ossl_error, at_end, h1, h2, h3, h4, h5, h6,
      h7, not_le.mpr h8, h8, h9, h10]
    subst hc
    exact ⟨rfl, rfl, rfl⟩
  by_cases h11 : 0 < env.add_chain_ret
  swap
  · simp only [hc1]
    simp [main_body, configure, loadOQSProvider, at_ossl_error, at_end, h1, h2, h3, h4, h5, h6,
      h7, not_le.mpr h8, h8, h9, h10, not_lt.mp h11, h11]
    subst hc
    exact ⟨rfl, rfl, rfl⟩
  by_cases h12 : 0 < env.use_cert_ret
  swap
  · simp only [hc1]
    simp [main_body, configure, loadOQSProvider, at_ossl_error, at_end, h1, h2, h3, h4, h5, h6,
      h7, not_le.mpr h8, h8, h9, h10, not_le.mpr h11, h11, not_lt.mp h12, h12]
    subst hc
    exact ⟨rfl, rfl, rfl⟩
  by_cases h13 : 0 < env.use_key_ret
  swap
  · simp only [hc1]
    simp [main_body, configure, loadOQSProvider, at_ossl_error, at_end, h1, h2, h3, h4, h5, h6,
      h7, not_le.mpr h8, h8, h9, h10, not_le.mpr h11, h11, not_le.mpr h12, h12, not_lt.mp h13,
      h13]
    subst hc
    exact ⟨rfl, rfl, rfl⟩
  by_cases h14 : env.check_key_ret ≠ 0
  swap
  · simp only [hc1]
    simp [main_body, configure, loadOQSProvider, at_ossl_error, at_end, h1, h2, h3, h4, h5, h6,
      h7, not_le.mpr h8, h8, h9, h10, not_le.mpr h11, h11, not_le.mpr h12, h12, not_le.mpr h13,
      h13, not_not.mp h14]
    subst hc
    exact ⟨rfl, rfl, rfl⟩
  by_cases h15 : 0 < env.conf_load_ret arguments.config_file
  swap
  · simp only [hc1]
    simp [main_body, configure, loadOQSProvider, at_ossl_error, at_end, h1, h2, h3, h4, h5, h6,
      h7, not_le.mpr h8, h8, h9, h10, not_le.mpr h11, h11, not_le.mpr h12, h12, not_le.mpr h13,
      h13, h14, not_lt.mp h15]
    subst hc
    exact ⟨rfl, rfl, rfl⟩
  subst hc
  have hcfg : steps_ok arguments env :=
    ⟨h1, h2, h3, h4, h5, h6, h7, h8, h9, h10, h11, h12, h13, h14, h15⟩
  have hc := configure_ready arguments env hcfg
  have hloop := while_loop_no_release env.so_linger_defined env.round arguments.rounds
    arguments.rounds 0 (Nat.sub_le _ _) (heap env)
  have hl0 : ∀ f, f = Fn.SSL_CTX_free ∨ f = Fn.free_handshake_times_ms ∨
      f = Fn.free_conn_success →
      (bench_loop arguments env).events.count (Event.call f) = 0 := by
    intro f hf
    rw [List.count_eq_zero]
    intro hmem
    have := hloop _ hmem
    rcases hf with rfl | rfl | rfl <;> simp at this
  have hr0 : ∀ f n, (report (bench_loop arguments env).bufs n).count (Event.call f) = 0 := by
    intro f n
    rw [List.count_eq_zero]
    intro hmem
    rcases report_mem _ _ _ hmem with ⟨i, h⟩ | ⟨i, h⟩ | ⟨t, h⟩ | ⟨t, h⟩ <;> cases h
  have hif : (if env.min_proto_ret = 1 ∧ env.max_proto_ret = 1 ∧ env.ciphersuites_ret = 1 ∧
      env.groups_ret = 1 ∧ 0 < env.verify_locations_ret ∧
      ¬ (env.fopen_ok = true ∧ env.pem_ok = true ∧ 0 < env.add_chain_ret ∧
        0 < env.use_cert_ret ∧ 0 < env.use_key_ret ∧ env.check_key_ret ≠ 0)
      then 2 else 1) = 1 := by
    rw [if_neg]
    intro hh
    exact hh.2.2.2.2.2 ⟨h9, h10, h11, h12, h13, h14⟩
  rw [hif]
  cases hl : (bench_loop arguments env).ossl_error with
  | some ret =>
    rw [main_body_loop_error arguments env ret _ hc hl]
    simp only [List.count_append, hl0 _ (Or.inl rfl), hl0 _ (Or.inr (Or.inl rfl)),
      hl0 _ (Or.inr (Or.inr rfl))]
    exact ⟨rfl, rfl, fun _ _ _ => rfl⟩
  | none =>
    rw [main_body_reported arguments env _ hc hl]
    simp only [List.count_append, hl0 _ (Or.inl rfl), hl0 _ (Or.inr (Or.inl rfl)),
      hl0 _ (Or.inr (Or.inr rfl)), hr0]
    exact ⟨rfl, rfl, fun _ _ _ => rfl⟩

/-- C1, the code at the failing input: with no option on the command line and
a library that rejects the TLS 1.3 minimum version pin
(`SSL_CTX_set_min_proto_version` returns 0), a configuration step has failed,
the run goes through `ossl_error` without starting a handshake, and `main`
returns 0. -/
theorem C1_exit_zero_when_pin_rejected :
    ¬ steps_ok (argp_parse pin_rejected_env.atoi [] default_arguments) pin_rejected_env ∧
    pin_rejected_env.min_proto_ret ≠ 1 ∧
    Event.fprintf_stderr "Unrecoverable OpenSSL error.\n".toList ∈
      (main [] pin_rejected_env).trace ∧
    (main [] pin_rejected_env).trace.count (Event.call Fn.BIO_new) = 0 ∧
    (main [] pin_rejected_env).ret = 0 := by
  decide

/-- C9, the code at the failing input: when the intermediate certificate file
cannot be opened, the context has been created and `SSL_CTX_free` is applied to
it twice before `main` returns (line 246, then line 334); the two buffers are
freed once each.  On the path of a rejected version pin the context is freed
once. -/
theorem C9_context_freed_twice :
    Event.call Fn.SSL_CTX_new ∈ (main [] no_chain_file_env).trace ∧
    no_chain_file_env.ctx_ok = true ∧
    (main [] no_chain_file_env).trace.count (Event.call Fn.SSL_CTX_free) = 2 ∧
    (main [] no_chain_file_env).trace.count (Event.call Fn.free_handshake_times_ms) = 1 ∧
    (main [] no_chain_file_env).trace.count (Event.call Fn.free_conn_success) = 1 ∧
    (main [] pin_rejected_env).trace.count (Event.call Fn.SSL_CTX_free) = 1 := by
  decide

/-- For a counter `n` from 1 to `SIZE - 1` the reporting step reads the
buffers only at indices below `n`. -/
theorem report_reads_in_bounds (bufs : Buffers) (n : Nat) (h1 : 1 ≤ n) (h2 : n < SIZE)
    (i : Nat) (h : Event.load_time i ∈ report bufs n ∨ Event.load_success i ∈ report bufs n) :
    i < n := by
  have hs := size_sub_one n h1 h2
  unfold report at h
  rw [hs] at h
  simp only [List.mem_append, List.mem_flatten, List.mem_map, List.mem_range, report_at,
    List.mem_cons, List.mem_singleton, List.not_mem_nil, or_false] at h
  rcases h with (⟨l, ⟨j, hj, rfl⟩, hi⟩ | hi) | (⟨l, ⟨j, hj, rfl⟩, hi⟩ | hi)
  · simp at hi
    omega
  · simp at hi
    omega
  · simp at hi
    omega
  · simp at hi
    omega

theorem size_sub_zero_one : size_sub 0 1 = 18446744073709551615 := by decide

/-- C10, the code at the failing input: `--rounds 0` leaves `rounds = 0`; the
loop makes no pass, `measurements - 1` wraps around to `2^64 - 1`, and the
reporting step reads both buffers at index 0, which is not below 0, and prints
a token. -/
theorem C10_report_reads_out_of_bounds :
    (argp_parse good_env.atoi [(114, "0".toList)] default_arguments).rounds = 0 ∧
    (main [(114, "0".toList)] good_env).measurements = 0 ∧
    Event.load_time 0 ∈ (main [(114, "0".toList)] good_env).trace ∧
    Event.load_success 0 ∈ (main [(114, "0".toList)] good_env).trace ∧
    Event.printf 321 (token_comma (good_env.heap_times 0) (good_env.heap_success 0)) ∈
      (main [(114, "0".toList)] good_env).trace ∧
    ¬ (0 < (argp_parse good_env.atoi [(114, "0".toList)] default_arguments).rounds) := by
  have hr : (argp_parse good_env.atoi [(114, "0".toList)] default_arguments).rounds = 0 := by
    decide
  have hcfg : steps_ok (argp_parse good_env.atoi [(114, "0".toList)] default_arguments)
      good_env := by decide
  have hc := configure_ready _ _ hcfg
  obtain ⟨l1, l2, _, _⟩ := bench_loop_complete
    (argp_parse good_env.atoi [(114, "0".toList)] default_arguments) good_env
    (fun i hi => by rw [hr] at hi; omega)
  have hb : (bench_loop (argp_parse good_env.atoi [(114, "0".toList)] default_arguments)
      good_env).bufs = heap good_env := by
    unfold bench_loop
    rw [while_loop_exit _ _ _ _ _ _ _ (by rw [hr]; omega)]
  have hmem : ∀ e ∈ report_at (heap good_env) 0 321 token_comma,
      e ∈ (main [(114, "0".toList)] good_env).trace := by
    intro e he
    unfold main
    rw [main_body_reported _ _ _ hc l1, l2, hr, hb]
    apply List.mem_append_left
    apply List.mem_append_right
    unfold report
    apply List.mem_append_left
    rw [List.mem_flatten]
    refine ⟨_, List.mem_map.mpr ⟨0, ?_, rfl⟩, he⟩
    rw [List.mem_range, size_sub_zero_one]
    omega
  refine ⟨hr, ?_, hmem _ (by simp [report_at]), hmem _ (by simp [report_at]),
    hmem _ (by simp [report_at, heap]), by rw [hr]; omega⟩
  unfold main
  rw [main_body_reported _ _ _ hc l1, l2, hr]

end STimer
